import Mathlib

/-!
# go-spring cache layer: embedding and verified properties

A shallow embedding of `internal/cache` (the two local stores, the `Cache`
interface, the cache-aside decorators, the key generator and the Redis store), of
`internal/observability` (`CacheMetrics`), of `initCache` in `internal/container`
and of `UserService.UpdateUser` with the repository methods it calls, followed by
theorems about the embedded code.

Conventions of the embedding.

* A Go method with a pointer receiver becomes a function that takes the
  receiver's state and returns the result paired with the new state.
* Every call of `time.Now()` becomes an explicit clock reading argument.
* `context.Context` arguments are dropped: no embedded function reads them.
* The mutexes of `MemoryCache` and the internals of `sync.Map` are not modelled:
  each method is one atomic step on the table.
* What the standard library and the Redis client compute (`json.Marshal`,
  `json.Unmarshal`, the reply to `GET`, the liveness check, the SQL queries) is an
  explicit argument.
-/

namespace GoSpring

/-! ## Go primitives -/

/-- Go `interface{}`: `none` is the nil interface, `some v` holds a dynamic value. -/
abbrev Interface (V : Type) := Option V

/-- Go `error`: `none` is the nil error, `some msg` an error value, identified by
the text its `Error()` method returns. -/
abbrev error := Option String

/-- How a Go call ends: it returns `a`, or it panics with a nil pointer dereference
(`invalid memory address or nil pointer dereference`). -/
inductive Outcome (α : Type) where
  | returned (a : α)
  | panicked
  deriving DecidableEq

/-- Smallest `int64`. -/
def minInt64 : Int := -9223372036854775808

/-- Largest `int64`. -/
def maxInt64 : Int := 9223372036854775807

/-- Two's complement wrap-around of an integer into the `int64` range. -/
def wrapInt64 (x : Int) : Int :=
  (x + 9223372036854775808) % 18446744073709551616 - 9223372036854775808

namespace time

/-- Go `time.Duration`: a signed count of nanoseconds, stored in an `int64`. -/
abbrev Duration := Int

/-- A `time.Duration` is an `int64`. -/
def Duration.valid (d : Duration) : Prop := minInt64 ≤ d ∧ @LE.le Int _ d maxInt64

instance (d : Duration) : Decidable (Duration.valid d) := by
  unfold Duration.valid; infer_instance

/-- Clock reading: the nanoseconds elapsed since the Unix epoch at the moment
`time.Now()` is called. Wall clock and monotonic clock advance together. -/
abbrev Clock := Nat

/-- Clock readings whose Unix time in nanoseconds fits an `int64` (instants up to
the year 2262), the range in which `Time.UnixNano` is defined. -/
def Clock.valid (c : Clock) : Prop := (c : Int) ≤ maxInt64

instance (c : Clock) : Decidable (Clock.valid c) := by
  unfold Clock.valid; infer_instance

/-- Go `time.Time`: an instant, counted in nanoseconds from the zero instant
(January 1, year 1, 00:00:00 UTC), the value of `time.Time{}`. -/
structure Time where
  nanos : Int
  deriving DecidableEq

/-- Seconds from the zero instant to the Unix epoch (`unixToInternal`). -/
def unixToInternal : Int := 62135596800

/-- The zero value `time.Time{}`. -/
def Time.zero : Time := ⟨0⟩

/-- Go `time.Now()` at clock reading `c`. -/
def Now (c : Clock) : Time := ⟨unixToInternal * 1000000000 + c⟩

/-- Go `Time.Add`. -/
def Time.Add (t : Time) (d : Duration) : Time := ⟨t.nanos + d⟩

/-- Go `Time.IsZero`. -/
def Time.IsZero (t : Time) : Bool := t.nanos == 0

/-- Go `Time.Before`. -/
def Time.Before (t u : Time) : Bool := decide (t.nanos < u.nanos)

/-- Go `Time.UnixNano`: `unixSec * 1e9 + nsec` in `int64` arithmetic. -/
def Time.UnixNano (t : Time) : Int := wrapInt64 (t.nanos - unixToInternal * 1000000000)

end time

open time

/-! ## `internal/cache/memory.go` -/

/-- Go `item`: a cached value with its expiration in Unix nanoseconds. -/
structure item (V : Type) where
  value : Interface V
  expiration : Int

/-- Go `MemoryCache`: the `map[string]item`. -/
structure MemoryCache (V : Type) where
  store : String → Option (item V)

/-- Go `NewMemoryCache`. -/
def NewMemoryCache {V : Type} : MemoryCache V := ⟨fun _ => none⟩

/-- Go `MemoryCache.Get`, with `now` the clock reading of its `time.Now()`. -/
def MemoryCache.Get {V : Type} (c : MemoryCache V) (now : Clock) (key : String) :
    (Interface V × Bool) × MemoryCache V :=
  match c.store key with
  | none => ((none, false), c)
  | some itm =>
    if decide (itm.expiration > 0) && decide (itm.expiration < (Now now).UnixNano) then
      ((none, false), c)
    else
      ((itm.value, true), c)

/-- Go `MemoryCache.Set`, with `now` the clock reading of its `time.Now()`. -/
def MemoryCache.Set {V : Type} (c : MemoryCache V) (now : Clock) (key : String)
    (value : Interface V) (ttl : Duration) : error × MemoryCache V :=
  let exp : Int := if ttl > 0 then ((Now now).Add ttl).UnixNano else 0
  (none, ⟨Function.update c.store key (some ⟨value, exp⟩)⟩)

/-- Go `MemoryCache.Delete`. -/
def MemoryCache.Delete {V : Type} (c : MemoryCache V) (key : String) :
    error × MemoryCache V :=
  (none, ⟨Function.update c.store key none⟩)

/-- Go `MemoryCache.Clear`. -/
def MemoryCache.Clear {V : Type} (_c : MemoryCache V) : error × MemoryCache V :=
  (none, ⟨fun _ => none⟩)

/-! ## `internal/cache/cache.go` -/

/-- Go `CacheEntry`. -/
structure CacheEntry (V : Type) where
  Value : Interface V
  Expiration : Time

/-- Go `InMemoryCache`: the contents of its `sync.Map`. -/
structure InMemoryCache (V : Type) where
  store : String → Option (CacheEntry V)

/-- Go `NewInMemoryCache`. -/
def NewInMemoryCache {V : Type} : InMemoryCache V := ⟨fun _ => none⟩

/-- Go `InMemoryCache.Get`, with `now` the clock reading of its `time.Now()`. -/
def InMemoryCache.Get {V : Type} (c : InMemoryCache V) (now : Clock) (key : String) :
    (Interface V × Bool) × InMemoryCache V :=
  match c.store key with
  | some entry =>
    if entry.Expiration.IsZero || (Now now).Before entry.Expiration then
      ((entry.Value, true), c)
    else
      ((none, false), ⟨Function.update c.store key none⟩)
  | none => ((none, false), c)

/-- Go `InMemoryCache.Set`, with `now` the clock reading of its `time.Now()`. -/
def InMemoryCache.Set {V : Type} (c : InMemoryCache V) (now : Clock) (key : String)
    (value : Interface V) (ttl : Duration) : error × InMemoryCache V :=
  let entry : CacheEntry V :=
    if ttl > 0 then ⟨value, (Now now).Add ttl⟩ else ⟨value, Time.zero⟩
  (none, ⟨Function.update c.store key (some entry)⟩)

/-- Go `InMemoryCache.Delete`. -/
def InMemoryCache.Delete {V : Type} (c : InMemoryCache V) (key : String) :
    error × InMemoryCache V :=
  (none, ⟨Function.update c.store key none⟩)

/-- Go `InMemoryCache.Clear`. -/
def InMemoryCache.Clear {V : Type} (_c : InMemoryCache V) : error × InMemoryCache V :=
  (none, ⟨fun _ => none⟩)

/-- Go interface `Cache`: an implementation with table state `σ`. Each method
takes the clock reading of the moment it runs. -/
structure Cache (σ V : Type) where
  Get : σ → Clock → String → (Interface V × Bool) × σ
  Set : σ → Clock → String → Interface V → Duration → error × σ
  Delete : σ → Clock → String → error × σ
  Clear : σ → Clock → error × σ

/-- The type `*MemoryCache` as an implementation of `Cache`. -/
def MemoryCache.asCache (V : Type) : Cache (MemoryCache V) V where
  Get := fun c now key => c.Get now key
  Set := fun c now key value ttl => c.Set now key value ttl
  Delete := fun c _ key => c.Delete key
  Clear := fun c _ => c.Clear

/-- The type `*InMemoryCache` as an implementation of `Cache`. -/
def InMemoryCache.asCache (V : Type) : Cache (InMemoryCache V) V where
  Get := fun c now key => c.Get now key
  Set := fun c now key value ttl => c.Set now key value ttl
  Delete := fun c _ key => c.Delete key
  Clear := fun c _ => c.Clear

/-! ## `internal/observability/cache_metrics.go` -/

/-- Go `CacheMetrics`: the values of the three Prometheus counters and of the
gauge. A Prometheus counter starts at zero and `Inc` adds one. -/
structure CacheMetrics where
  hits : Nat
  misses : Nat
  errors : Nat
  size : Int
  deriving DecidableEq

/-- Go `NewCacheMetrics`. -/
def NewCacheMetrics : CacheMetrics := ⟨0, 0, 0, 0⟩

/-- Go `CacheMetrics.RecordHit`. -/
def CacheMetrics.RecordHit (m : CacheMetrics) : CacheMetrics :=
  { m with hits := m.hits + 1 }

/-- Go `CacheMetrics.RecordMiss`. -/
def CacheMetrics.RecordMiss (m : CacheMetrics) : CacheMetrics :=
  { m with misses := m.misses + 1 }

/-- Go `CacheMetrics.RecordError`. -/
def CacheMetrics.RecordError (m : CacheMetrics) : CacheMetrics :=
  { m with errors := m.errors + 1 }

/-- Go `CacheMetrics.UpdateSize`. -/
def CacheMetrics.UpdateSize (m : CacheMetrics) (size : Int) : CacheMetrics :=
  { m with size := size }

/-! ## `internal/cache/decorator.go` -/

/-- A producer `fn`: a Go closure returning `(R, error)`. Whatever the closure
reads and writes is its state `P`; one invocation maps the state before to the
result and the state after. -/
abbrev Producer (P R : Type) := P → (R × error) × P

/-- Instruments a producer with an invocation counter. -/
def Producer.counted {P R : Type} (fn : Producer P R) : Producer (P × Nat) R :=
  fun s => ((fn s.1).1, ((fn s.1).2, s.2 + 1))

/-- Go `CacheDecorator`: the state of the store behind `cache`, and `metrics`. -/
structure CacheDecorator (σ : Type) where
  cache : σ
  metrics : CacheMetrics

/-- Go `NewCacheDecorator`. -/
def NewCacheDecorator {σ : Type} (cache : σ) : CacheDecorator σ :=
  ⟨cache, NewCacheMetrics⟩

/-- Go `CacheDecorator.Cacheable`. `impl` is the dynamic type behind `d.cache`;
`tGet` and `tSet` are the clock readings during `d.cache.Get` and `d.cache.Set`;
`p` is the producer's state at the call. -/
def CacheDecorator.Cacheable {σ V P : Type} (impl : Cache σ V) (d : CacheDecorator σ)
    (tGet tSet : Clock) (key : String) (ttl : Duration) (fn : Producer P (Interface V))
    (p : P) : (Interface V × error) × CacheDecorator σ × P :=
  match impl.Get d.cache tGet key with
  | ((cached, true), c1) => ((cached, none), ⟨c1, d.metrics.RecordHit⟩, p)
  | ((_, false), c1) =>
    let m1 := d.metrics.RecordMiss
    match fn p with
    | ((_, some err), p1) => ((none, some err), ⟨c1, m1⟩, p1)
    | ((result, none), p1) =>
      match impl.Set c1 tSet key result ttl with
      | (some _, c2) => ((result, none), ⟨c2, m1.RecordError⟩, p1)
      | (none, c2) => ((result, none), ⟨c2, m1⟩, p1)

/-- Go `CacheDecorator.CacheEvict`. The argument `fn` is never called. -/
def CacheDecorator.CacheEvict {σ V P : Type} (impl : Cache σ V) (d : CacheDecorator σ)
    (now : Clock) (key : String) (allEntries : Bool) (_fn : P → error × P) (p : P) :
    error × CacheDecorator σ × P :=
  if allEntries then
    ((impl.Clear d.cache now).1, ⟨(impl.Clear d.cache now).2, d.metrics⟩, p)
  else
    ((impl.Delete d.cache now key).1, ⟨(impl.Delete d.cache now key).2, d.metrics⟩, p)

/-- Go `CacheDecorator.CachePut`, with `tSet` the clock reading during `d.cache.Set`. -/
def CacheDecorator.CachePut {σ V P : Type} (impl : Cache σ V) (d : CacheDecorator σ)
    (tSet : Clock) (key : String) (ttl : Duration) (fn : Producer P (Interface V))
    (p : P) : (Interface V × error) × CacheDecorator σ × P :=
  match fn p with
  | ((_, some err), p1) => ((none, some err), d, p1)
  | ((result, none), p1) =>
    match impl.Set d.cache tSet key result ttl with
    | (some _, c2) => ((result, none), ⟨c2, d.metrics.RecordError⟩, p1)
    | (none, c2) => ((result, none), ⟨c2, d.metrics⟩, p1)

/-- How values of the type parameter `T` of the generic `Cacheable` live in
`interface{}`: the zero value `var zero T`, the conversion made when a `T` is
passed as `interface{}`, and the type assertion `cached.(T)`. -/
structure GoType (V T : Type) where
  zero : T
  box : T → Interface V
  assert : Interface V → Option T

/-- Go generic `Cacheable[T]`, applied to `fn` and then to `args`. `c` is the
state of `cache`, `out` the lines already written to standard output. -/
def Cacheable {σ V T P : Type} (ty : GoType V T) (impl : Cache σ V)
    (keyGenerator : List (Interface V) → String) (ttl : Duration)
    (fn : List (Interface V) → Producer P T) (args : List (Interface V))
    (c : σ) (tGet tSet : Clock) (p : P) (out : List String) :
    (T × error) × σ × P × List String :=
  let key := keyGenerator args
  let callFn (c1 : σ) : (T × error) × σ × P × List String :=
    match fn args p with
    | ((_, some err), p1) => ((ty.zero, some err), c1, p1, out)
    | ((result, none), p1) =>
      match impl.Set c1 tSet key (ty.box result) ttl with
      | (some err, c2) =>
        ((result, none), c2, p1, out ++ ["Failed to cache result: " ++ err ++ "\n"])
      | (none, c2) => ((result, none), c2, p1, out)
  match impl.Get c tGet key with
  | ((cached, true), c1) =>
    match ty.assert cached with
    | some result => ((result, none), c1, p, out)
    | none => callFn c1
  | ((_, false), c1) => callFn c1

/-- A Go dynamic value, as far as `DefaultKeyGenerator` tells values apart: a
`string`, or a value `w` of any other dynamic type. -/
inductive Dyn (W : Type) where
  | str (s : String)
  | other (w : W)

/-- The type assertion `arg.(string)`: the string held by the interface value, if
its dynamic type is `string`. -/
def Dyn.assertString {W : Type} : Interface (Dyn W) → Option String
  | some (.str s) => some s
  | _ => none

/-- Go `DefaultKeyGenerator`. `jsonMarshal` is `json.Marshal` of the standard
library, `none` when it returns an error. -/
def DefaultKeyGenerator {W : Type} (jsonMarshal : Interface (Dyn W) → Option String)
    (args : List (Interface (Dyn W))) : String :=
  args.foldl (fun key arg =>
    (match Dyn.assertString arg with
      | some str => key ++ str
      | none =>
        match jsonMarshal arg with
        | some bytes => key ++ bytes
        | none => key) ++ ":") ""

/-- The textual form of one argument: a string argument itself, the JSON encoding
of any other argument, nothing when there is no JSON encoding. -/
def argText {W : Type} (jsonMarshal : Interface (Dyn W) → Option String)
    (arg : Interface (Dyn W)) : String :=
  match Dyn.assertString arg with
  | some str => str
  | none => (jsonMarshal arg).getD ""

/-- The textual forms of the arguments separated by `":"`. -/
def separatedKey {W : Type} (jsonMarshal : Interface (Dyn W) → Option String)
    (args : List (Interface (Dyn W))) : String :=
  String.intercalate ":" (args.map (argText jsonMarshal))

/-- The textual forms of the arguments, each followed by `":"`. -/
def terminatedKey {W : Type} (jsonMarshal : Interface (Dyn W) → Option String) :
    List (Interface (Dyn W)) → String
  | [] => ""
  | arg :: rest => argText jsonMarshal arg ++ ":" ++ terminatedKey jsonMarshal rest

/-! ## `internal/cache/redis.go` -/

/-- The `redis.Options` a `redis.Client` is created with. -/
structure RedisOptions where
  Addr : String
  Password : String
  DB : Int
  deriving DecidableEq

/-- Go `RedisCache`: the client, described by its options, and `metrics`. -/
structure RedisCache where
  client : RedisOptions
  metrics : CacheMetrics
  deriving DecidableEq

/-- Go `NewRedisCache`. `ping` is what `client.Ping(...).Err()` returns for a client
with the given options. -/
def NewRedisCache (ping : RedisOptions → error) (host : String) (port : Int)
    (password : String) (db : Int) : Option RedisCache × error :=
  let client : RedisOptions := ⟨host ++ ":" ++ toString port, password, db⟩
  match ping client with
  | some err => (none, some ("failed to connect to Redis: " ++ err))
  | none => (some ⟨client, NewCacheMetrics⟩, none)

/-- Go `RedisCache.Get`. `reply` is what `c.client.Get(ctx, key).Result()` returns,
the stored text and the error (`redis.Nil` when the key is absent); `jsonUnmarshal`
is `json.Unmarshal` into an `interface{}`, `none` when it returns an error. -/
def RedisCache.Get {V : Type} (jsonUnmarshal : String → Option (Interface V))
    (c : RedisCache) (reply : String × error) : (Interface V × Bool) × RedisCache :=
  match reply with
  | (_, some _) => ((none, false), { c with metrics := c.metrics.RecordMiss })
  | (val, none) =>
    let m1 := c.metrics.RecordHit
    match jsonUnmarshal val with
    | none => ((none, false), { c with metrics := m1.RecordError })
    | some result => ((result, true), { c with metrics := m1 })

/-! ## `internal/config` -/

/-- Go `config.DatabaseConfig`. -/
structure DatabaseConfig where
  URL : String

/-- Go `config.ServerConfig`. -/
structure ServerConfig where
  Host : String
  Port : Int

/-- Go `config.RedisConfig`. -/
structure RedisConfig where
  Host : String
  Port : Int
  Password : String
  DB : Int

/-- Go `config.CacheConfig`; `Typ` is its field `Type`. -/
structure CacheConfig where
  Typ : String
  Redis : RedisConfig

/-- Go `config.VaultConfig`. -/
structure VaultConfig where
  Address : String
  Token : String
  MountPath : String
  SecretPath : String

/-- Go `config.Config`. -/
structure Config where
  Database : DatabaseConfig
  Server : ServerConfig
  Cache : CacheConfig
  Vault : VaultConfig

/-! ## `internal/container/container.go` -/

/-- The dynamic value of a `cache.Cache` interface value that `initCache` returns:
a `*MemoryCache`, or a `*RedisCache` pointer, which is `none` when it is nil. -/
inductive CacheValue (V : Type) where
  | memoryCache (c : MemoryCache V)
  | redisCache (ptr : Option RedisCache)

/-- Go `initCache`. `ping` is handed on to `NewRedisCache`. -/
def initCache (V : Type) (ping : RedisOptions → error) (cfg : Config) :
    Interface (CacheValue V) × error :=
  if cfg.Cache.Typ = "memory" then
    (some (.memoryCache NewMemoryCache), none)
  else if cfg.Cache.Typ = "redis" then
    (some (.redisCache (NewRedisCache ping cfg.Cache.Redis.Host cfg.Cache.Redis.Port
        cfg.Cache.Redis.Password cfg.Cache.Redis.DB).1),
      (NewRedisCache ping cfg.Cache.Redis.Host cfg.Cache.Redis.Port
        cfg.Cache.Redis.Password cfg.Cache.Redis.DB).2)
  else
    (none, some ("unsupported cache type: " ++ cfg.Cache.Typ))

/-! ## `internal/repository` -/

/-- Go `repository.User`. -/
structure User where
  ID : Int
  Username : String
  Email : String
  CreatedAt : Time
  UpdatedAt : Time
  deriving DecidableEq

/-- What `r.db.QueryRowContext(...).Scan(...)` yields for a query of the `users`
table: the scanned row, `sql.ErrNoRows`, or another error. -/
inductive ScanResult where
  | row (user : User)
  | noRows
  | failed (err : String)
  deriving DecidableEq

/-- An argument bound to a placeholder `$1`, `$2`, ... of a statement. -/
inductive SqlArg where
  | int (n : Int)
  | text (s : String)
  | time (t : Time)
  deriving DecidableEq

/-- The database behind `*sql.DB`, with state `ρ`: what it answers to a statement
given as text with its arguments. `queryRow` is `QueryRowContext(...).Scan(...)`
into the five fields of a `User`, `exec` is `ExecContext(...)`. -/
structure Database (ρ : Type) where
  queryRow : ρ → String → List SqlArg → ScanResult
  exec : ρ → String → List SqlArg → error × ρ

/-- Go `BaseRepository`: the fields its statements are built from. -/
structure BaseRepository where
  tableName : String
  idColumn : String
  columns : List String
  deriving DecidableEq

/-- Go `NewBaseRepository`. -/
def NewBaseRepository (tableName : String) (idColumn : String) (columns : List String) :
    BaseRepository :=
  ⟨tableName, idColumn, columns⟩

/-- Go `UserRepository`; `base` is its embedded `*BaseRepository`. -/
structure UserRepository where
  base : BaseRepository
  deriving DecidableEq

/-- Go `NewUserRepository`. -/
def NewUserRepository : UserRepository :=
  ⟨NewBaseRepository "users" "id" ["id", "username", "email", "created_at", "updated_at"]⟩

/-- Go `joinColumns`: `fmt.Sprintf("%s", columns)`, which prints a `[]string` as its
elements separated by blanks, in square brackets. -/
def joinColumns (columns : List String) : String :=
  "[" ++ " ".intercalate columns ++ "]"

/-- The statement text that `BaseRepository.FindByID` builds. -/
def BaseRepository.findByIDQuery (r : BaseRepository) : String :=
  "SELECT " ++ joinColumns r.columns ++ " FROM " ++ r.tableName ++ " WHERE " ++ r.idColumn
    ++ " = $1"

/-- Go `BaseRepository.FindByID`. A `*User` result is `none` when the pointer is nil. -/
def BaseRepository.FindByID {ρ : Type} (r : BaseRepository) (db : Database ρ) (s : ρ)
    (id : Int) : Option User × error :=
  match db.queryRow s r.findByIDQuery [.int id] with
  | .row user => (some user, none)
  | .noRows => (none, none)
  | .failed err => (none, some ("failed to find by ID: " ++ err))

/-- Go `UserRepository.FindByUsername`. -/
def UserRepository.FindByUsername {ρ : Type} (db : Database ρ) (s : ρ) (username : String) :
    Option User × error :=
  match db.queryRow s
      "SELECT id, username, email, created_at, updated_at FROM users WHERE username = $1"
      [.text username] with
  | .row user => (some user, none)
  | .noRows => (none, none)
  | .failed err => (none, some err)

/-- Go `UserRepository.FindByEmail`. -/
def UserRepository.FindByEmail {ρ : Type} (db : Database ρ) (s : ρ) (email : String) :
    Option User × error :=
  match db.queryRow s
      "SELECT id, username, email, created_at, updated_at FROM users WHERE email = $1"
      [.text email] with
  | .row user => (some user, none)
  | .noRows => (none, none)
  | .failed err => (none, some err)

/-- The statement text of `UserRepository.UpdateUser`. -/
def UserRepository.updateUserQuery : String :=
  "\n\t\tUPDATE users\n\t\tSET username = $1, email = $2, updated_at = $3\n\t\tWHERE id = $4\n\t"

/-- Go `UserRepository.UpdateUser`, with `now` the clock reading of its `time.Now()`:
the error, the user record with its new `UpdatedAt`, and the database afterwards. -/
def UserRepository.UpdateUser {ρ : Type} (db : Database ρ) (s : ρ) (now : Clock)
    (user : User) : (error × User) × ρ :=
  let user1 : User := { user with UpdatedAt := Now now }
  (((db.exec s UserRepository.updateUserQuery
        [.text user1.Username, .text user1.Email, .time user1.UpdatedAt, .int user1.ID]).1,
      user1),
    (db.exec s UserRepository.updateUserQuery
        [.text user1.Username, .text user1.Email, .time user1.UpdatedAt, .int user1.ID]).2)

/-- A database that holds a `users` table, for evaluating the repository; its state
is the rows of the table. It answers the `SELECT`s of the five columns by `id`, by
`username` and by `email` and the `UPDATE` of the repository, and rejects every other
statement text with a syntax error, as a SQL database does with a text that is not a
SQL statement. -/
def usersTable : Database (List User) where
  queryRow := fun rows query args =>
    if query = "SELECT id, username, email, created_at, updated_at FROM users WHERE id = $1" then
      match args with
      | [.int id] =>
        match rows.find? (fun u => decide (u.ID = id)) with
        | some u => .row u
        | none => .noRows
      | _ => .failed "pq: got unexpected parameters"
    else if query
        = "SELECT id, username, email, created_at, updated_at FROM users WHERE username = $1" then
      match args with
      | [.text username] =>
        match rows.find? (fun u => decide (u.Username = username)) with
        | some u => .row u
        | none => .noRows
      | _ => .failed "pq: got unexpected parameters"
    else if query
        = "SELECT id, username, email, created_at, updated_at FROM users WHERE email = $1" then
      match args with
      | [.text email] =>
        match rows.find? (fun u => decide (u.Email = email)) with
        | some u => .row u
        | none => .noRows
      | _ => .failed "pq: got unexpected parameters"
    else .failed "pq: syntax error"
  exec := fun rows query args =>
    if query = UserRepository.updateUserQuery then
      match args with
      | [.text username, .text email, .time updatedAt, .int id] =>
        (none, rows.map (fun u =>
          if u.ID = id then
            { u with Username := username, Email := email, UpdatedAt := updatedAt }
          else u))
      | _ => (some "pq: got unexpected parameters", rows)
    else (some "pq: syntax error", rows)

/-! ## `internal/service/user_service.go` -/

/-- Go `UserService.UpdateUser`. `repo` is `s.userRepo`, `s` the state of the database
and `c` the state of the store behind `s.cache`; `tUpdate`, `tDel1` and `tDel2` are
the clock readings during the repository update and the two `s.cache.Delete` calls.
The pointer `existingUser` is `none` when it is nil, and reading a field through it
then panics. Tracing spans and duration metrics are not part of the state. -/
def UserService.UpdateUser {ρ σ V : Type} (repo : UserRepository) (db : Database ρ)
    (impl : Cache σ V) (s : ρ) (c : σ) (tUpdate tDel1 tDel2 : Clock) (user : User) :
    Outcome error × ρ × σ :=
  let finish : Outcome error × ρ × σ :=
    match UserRepository.UpdateUser db s tUpdate user with
    | ((some err, _), s1) => (.returned (some err), s1, c)
    | ((none, user1), s1) =>
      let c1 := (impl.Delete c tDel1 ("user:" ++ toString user1.ID)).2
      let c2 := (impl.Delete c1 tDel2 ("user:username:" ++ user1.Username)).2
      (.returned none, s1, c2)
  let emailCheck (existingUser : Option User) : Outcome error × ρ × σ :=
    match existingUser with
    | none => (.panicked, s, c)
    | some existing =>
      if user.Email ≠ existing.Email then
        match UserRepository.FindByEmail db s user.Email with
        | (_, some err) => (.returned (some err), s, c)
        | (some _, none) => (.returned (some "email already exists"), s, c)
        | (none, none) => finish
      else finish
  match repo.base.FindByID db s user.ID with
  | (_, some err) => (.returned (some err), s, c)
  | (none, none) => (.returned (some "user not found"), s, c)
  | (some existing, none) =>
    if user.Username ≠ existing.Username then
      match UserRepository.FindByUsername db s user.Username with
      | (_, some err) => (.returned (some err), s, c)
      | (some _, none) => (.returned (some "username already exists"), s, c)
      | (none, none) => emailCheck none
    else emailCheck (some existing)

/-! ## Operation sequences on a store -/

/-- One call on a `Cache`. -/
inductive Op (V : Type) where
  | get (key : String)
  | set (key : String) (value : Interface V) (ttl : Duration)
  | delete (key : String)
  | clear

/-- What a call on a `Cache` returns. -/
inductive Ret (V : Type) where
  | got (value : Interface V) (found : Bool)
  | done (err : error)

/-- Runs one call at clock reading `o.1`. -/
def Cache.step {σ V : Type} (impl : Cache σ V) (c : σ) (o : Clock × Op V) : Ret V × σ :=
  match o.2 with
  | .get key => (.got (impl.Get c o.1 key).1.1 (impl.Get c o.1 key).1.2, (impl.Get c o.1 key).2)
  | .set key value ttl => (.done (impl.Set c o.1 key value ttl).1, (impl.Set c o.1 key value ttl).2)
  | .delete key => (.done (impl.Delete c o.1 key).1, (impl.Delete c o.1 key).2)
  | .clear => (.done (impl.Clear c o.1).1, (impl.Clear c o.1).2)

/-- Runs a sequence of calls, first to last: the returned values and the final state. -/
def Cache.run {σ V : Type} (impl : Cache σ V) (c : σ) : List (Clock × Op V) → List (Ret V) × σ
  | [] => ([], c)
  | o :: rest => ((impl.step c o).1 :: (impl.run (impl.step c o).2 rest).1,
      (impl.run (impl.step c o).2 rest).2)

/-- The call operates on `key`: a `Get`, `Set` or `Delete` of that key, or `Clear`. -/
def Op.touches {V : Type} (key : String) : Op V → Bool
  | .get k => k == key
  | .set k _ _ => k == key
  | .delete k => k == key
  | .clear => true

/-- The call writes the entry of `key`: a `Set` or `Delete` of that key, or `Clear`. -/
def Op.writes {V : Type} (key : String) : Op V → Bool
  | .get _ => false
  | .set k _ _ => k == key
  | .delete k => k == key
  | .clear => true

/-- The call is a `Set` of `key`. -/
def Op.isSetOf {V : Type} (key : String) : Op V → Bool
  | .set k _ _ => k == key
  | _ => false

/-- The most recent call of a sequence that writes the entry of `key`. -/
def lastWrite {V : Type} (key : String) : List (Clock × Op V) → Option (Clock × Op V)
  | [] => none
  | o :: rest =>
    match lastWrite key rest with
    | some w => some w
    | none => if o.2.writes key then some o else none

/-- The `ttl` passed by the call, when the call is a `Set`, is an `int64`. -/
def Op.ttlValid {V : Type} : Op V → Prop
  | .set _ _ ttl => Duration.valid ttl
  | _ => True

instance {V : Type} (o : Op V) : Decidable o.ttlValid := by
  cases o <;> simp only [Op.ttlValid] <;> infer_instance

/-- The clock readings of a sequence of calls never go back. -/
def clockNonDecreasing {V : Type} (ops : List (Clock × Op V)) : Prop :=
  List.Pairwise (fun a b => a.1 ≤ b.1) ops

instance {V : Type} (ops : List (Clock × Op V)) : Decidable (clockNonDecreasing ops) := by
  unfold clockNonDecreasing; infer_instance

/-- The clock reading, value and `ttl` of a write, when that write is a `Set`. -/
def setData {V : Type} : Option (Clock × Op V) → Option (Clock × Interface V × Duration)
  | some (s, .set _ v ttl) => some (s, v, ttl)
  | _ => none

/-- The call `o`, when it is a `Get`, is not made exactly at the expiration instant
of the entry set by the most recent write of its key among the earlier calls `pre`. -/
def getAwayFromExpiration {V : Type} (pre : List (Clock × Op V)) (o : Clock × Op V) : Bool :=
  match o.2 with
  | .get k =>
    match setData (lastWrite k pre) with
    | some (s, _, ttl) => !(decide (ttl > 0) && decide ((o.1 : Int) = s + ttl))
    | none => true
  | _ => true

/-- No `Get` among the calls `rest`, which follow the calls `pre`, is made exactly at
the expiration instant of the entry it looks up. -/
def noGetAtExpirationFrom {V : Type} (pre : List (Clock × Op V)) :
    List (Clock × Op V) → Bool
  | [] => true
  | o :: rest => getAwayFromExpiration pre o && noGetAtExpirationFrom (pre ++ [o]) rest

/-- How the entries of a `MemoryCache` and of an `InMemoryCache` under the key `k`
correspond after both have run the calls `pre` from fresh: both hold nothing when
the most recent write of `k` is not a `Set`, and otherwise `MemoryCache` holds the
entry that `Set` wrote and `InMemoryCache` holds the entry that `Set` wrote or has
discarded it during a `Get` made after its expiration instant. -/
def keyCorresponds {V : Type} (pre : List (Clock × Op V)) (m : MemoryCache V)
    (c : InMemoryCache V) (k : String) : Prop :=
  (setData (lastWrite k pre) = none ∧ m.store k = none ∧ c.store k = none) ∨
  (∃ s v ttl, setData (lastWrite k pre) = some (s, v, ttl) ∧
    m.store k = (NewMemoryCache.Set s k v ttl).2.store k ∧
    (c.store k = (NewInMemoryCache.Set s k v ttl).2.store k ∨
      (c.store k = none ∧ ttl > 0 ∧ ∃ p ∈ pre, (s : Int) + ttl < p.1)))

/-- The tables of the two stores correspond under every key. -/
def storesCorrespond {V : Type} (pre : List (Clock × Op V)) (m : MemoryCache V)
    (c : InMemoryCache V) : Prop :=
  ∀ k : String, keyCorresponds pre m c k

/-! ## Arithmetic of instants -/

theorem wrapInt64_of_inRange (x : Int) (h1 : minInt64 ≤ x) (h2 : x ≤ maxInt64) :
    wrapInt64 x = x := by
  unfold wrapInt64
  unfold minInt64 at h1
  unfold maxInt64 at h2
  omega

theorem wrapInt64_neg_of_overflow (x : Int) (h1 : maxInt64 < x) (h2 : x ≤ 2 * maxInt64) :
    wrapInt64 x < 0 := by
  unfold wrapInt64
  unfold maxInt64 at h1 h2
  omega

theorem UnixNano_Now (c : Clock) : (Now c).UnixNano = wrapInt64 c := by
  simp [Time.UnixNano, Now]

theorem UnixNano_Now_Add (c : Clock) (d : Duration) :
    ((Now c).Add d).UnixNano = wrapInt64 (c + d) := by
  simp only [Time.UnixNano, Now, Time.Add]
  congr 1
  ring

/-! ## Lookups in the two local stores -/

theorem MemoryCache.Get_snd {V : Type} (c : MemoryCache V) (now : Clock) (key : String) :
    (c.Get now key).2 = c := by
  unfold MemoryCache.Get
  split
  · rfl
  · split <;> rfl

theorem MemoryCache.Get_absent {V : Type} (c : MemoryCache V) (now : Clock) (key : String)
    (h : c.store key = none) : (c.Get now key).1 = (none, false) := by
  unfold MemoryCache.Get
  rw [h]

theorem MemoryCache.Get_present {V : Type} (c : MemoryCache V) (now : Clock) (key : String)
    (itm : item V) (h : c.store key = some itm) :
    (c.Get now key).1 =
      if 0 < itm.expiration ∧ itm.expiration < wrapInt64 now then (none, false)
      else (itm.value, true) := by
  unfold MemoryCache.Get
  rw [h]
  simp only [UnixNano_Now, gt_iff_lt, Bool.and_eq_true, decide_eq_true_eq]
  split <;> rfl

theorem InMemoryCache.Get_absent_sync {V : Type} (c : InMemoryCache V) (now : Clock) (key : String)
    (h : c.store key = none) : c.Get now key = ((none, false), c) := by
  unfold InMemoryCache.Get
  rw [h]

theorem InMemoryCache.Get_present_sync {V : Type} (c : InMemoryCache V) (now : Clock)
    (key : String) (e : CacheEntry V) (h : c.store key = some e) :
    c.Get now key =
      if e.Expiration.nanos = 0 ∨ (Now now).nanos < e.Expiration.nanos then ((e.Value, true), c)
      else ((none, false), ⟨Function.update c.store key none⟩) := by
  unfold InMemoryCache.Get
  rw [h]
  simp only [Time.IsZero, Time.Before, Bool.or_eq_true, beq_iff_eq, decide_eq_true_eq]

/-- A call that does not operate on `key` leaves the entry of `key` as it was
(`MemoryCache`). -/
theorem MemoryCache.step_store_of_not_touches {V : Type} (c : MemoryCache V)
    (o : Clock × Op V) (key : String) (h : o.2.touches key = false) :
    ((MemoryCache.asCache V).step c o).2.store key = c.store key := by
  obtain ⟨now, op⟩ := o
  cases op with
  | get k => simp [Cache.step, MemoryCache.asCache, MemoryCache.Get_snd]
  | set k v ttl =>
    have hk : key ≠ k := by
      intro e; subst e; simp [Op.touches] at h
    simp [Cache.step, MemoryCache.asCache, MemoryCache.Set, Function.update_noteq hk]
  | delete k =>
    have hk : key ≠ k := by
      intro e; subst e; simp [Op.touches] at h
    simp [Cache.step, MemoryCache.asCache, MemoryCache.Delete, Function.update_noteq hk]
  | clear => simp [Op.touches] at h

/-- A call that does not operate on `key` leaves the entry of `key` as it was
(`InMemoryCache`). -/
theorem InMemoryCache.step_store_of_not_touches_sync {V : Type} (c : InMemoryCache V)
    (o : Clock × Op V) (key : String) (h : o.2.touches key = false) :
    ((InMemoryCache.asCache V).step c o).2.store key = c.store key := by
  obtain ⟨now, op⟩ := o
  cases op with
  | get k =>
    have hk : key ≠ k := by
      intro e; subst e; simp [Op.touches] at h
    simp only [Cache.step, InMemoryCache.asCache]
    cases hs : c.store k with
    | none => rw [InMemoryCache.Get_absent_sync c now k hs]
    | some e =>
      rw [InMemoryCache.Get_present_sync c now k e hs]
      split
      · rfl
      · simp [Function.update_noteq hk]
  | set k v ttl =>
    have hk : key ≠ k := by
      intro e; subst e; simp [Op.touches] at h
    simp [Cache.step, InMemoryCache.asCache, InMemoryCache.Set, Function.update_noteq hk]
  | delete k =>
    have hk : key ≠ k := by
      intro e; subst e; simp [Op.touches] at h
    simp [Cache.step, InMemoryCache.asCache, InMemoryCache.Delete, Function.update_noteq hk]
  | clear => simp [Op.touches] at h

theorem MemoryCache.run_store_of_not_touches {V : Type} (ops : List (Clock × Op V))
    (c : MemoryCache V) (key : String) (h : ∀ o ∈ ops, o.2.touches key = false) :
    ((MemoryCache.asCache V).run c ops).2.store key = c.store key := by
  induction ops generalizing c with
  | nil => rfl
  | cons o rest ih =>
    simp only [Cache.run]
    rw [ih _ (fun o ho => h o (List.mem_cons_of_mem _ ho))]
    exact MemoryCache.step_store_of_not_touches c o key (h o (List.mem_cons_self _ _))

theorem InMemoryCache.run_store_of_not_touches_sync {V : Type} (ops : List (Clock × Op V))
    (c : InMemoryCache V) (key : String) (h : ∀ o ∈ ops, o.2.touches key = false) :
    ((InMemoryCache.asCache V).run c ops).2.store key = c.store key := by
  induction ops generalizing c with
  | nil => rfl
  | cons o rest ih =>
    simp only [Cache.run]
    rw [ih _ (fun o ho => h o (List.mem_cons_of_mem _ ho))]
    exact InMemoryCache.step_store_of_not_touches_sync c o key (h o (List.mem_cons_self _ _))

/-- A call other than `Set(key)`, `Delete(key)` and `Clear` leaves the entry of
`key` as it was (`MemoryCache`, whose `Get` never changes the table). -/
theorem MemoryCache.step_store_of_not_writes {V : Type} (c : MemoryCache V)
    (o : Clock × Op V) (key : String) (h : o.2.writes key = false) :
    ((MemoryCache.asCache V).step c o).2.store key = c.store key := by
  obtain ⟨now, op⟩ := o
  cases op with
  | get k => simp [Cache.step, MemoryCache.asCache, MemoryCache.Get_snd]
  | set k v ttl =>
    have hk : key ≠ k := by
      intro e; subst e; simp [Op.writes] at h
    simp [Cache.step, MemoryCache.asCache, MemoryCache.Set, Function.update_noteq hk]
  | delete k =>
    have hk : key ≠ k := by
      intro e; subst e; simp [Op.writes] at h
    simp [Cache.step, MemoryCache.asCache, MemoryCache.Delete, Function.update_noteq hk]
  | clear => simp [Op.writes] at h

theorem MemoryCache.run_store_of_not_writes {V : Type} (ops : List (Clock × Op V))
    (c : MemoryCache V) (key : String) (h : ∀ o ∈ ops, o.2.writes key = false) :
    ((MemoryCache.asCache V).run c ops).2.store key = c.store key := by
  induction ops generalizing c with
  | nil => rfl
  | cons o rest ih =>
    simp only [Cache.run]
    rw [ih _ (fun o ho => h o (List.mem_cons_of_mem _ ho))]
    exact MemoryCache.step_store_of_not_writes c o key (h o (List.mem_cons_self _ _))

/-- A call other than `Set(key)`, `Delete(key)` and `Clear` keeps an entry of
`key` that has no expiration (`InMemoryCache`). -/
theorem InMemoryCache.step_store_of_not_writes_sync {V : Type} (c : InMemoryCache V)
    (o : Clock × Op V) (key : String) (e : CacheEntry V) (h : o.2.writes key = false)
    (hs : c.store key = some e) (hz : e.Expiration.nanos = 0) :
    ((InMemoryCache.asCache V).step c o).2.store key = some e := by
  obtain ⟨now, op⟩ := o
  cases op with
  | get k =>
    simp only [Cache.step, InMemoryCache.asCache]
    by_cases hk : key = k
    · subst hk
      rw [InMemoryCache.Get_present_sync c now key e hs, if_pos (Or.inl hz)]
      exact hs
    · cases hs2 : c.store k with
      | none => rw [InMemoryCache.Get_absent_sync c now k hs2]; exact hs
      | some e2 =>
        rw [InMemoryCache.Get_present_sync c now k e2 hs2]
        split
        · exact hs
        · simp [Function.update_noteq hk, hs]
  | set k v ttl =>
    have hk : key ≠ k := by
      intro e; subst e; simp [Op.writes] at h
    simp [Cache.step, InMemoryCache.asCache, InMemoryCache.Set, Function.update_noteq hk, hs]
  | delete k =>
    have hk : key ≠ k := by
      intro e; subst e; simp [Op.writes] at h
    simp [Cache.step, InMemoryCache.asCache, InMemoryCache.Delete, Function.update_noteq hk, hs]
  | clear => simp [Op.writes] at h

theorem InMemoryCache.run_store_of_not_writes_sync {V : Type} (ops : List (Clock × Op V))
    (c : InMemoryCache V) (key : String) (e : CacheEntry V)
    (h : ∀ o ∈ ops, o.2.writes key = false)
    (hs : c.store key = some e) (hz : e.Expiration.nanos = 0) :
    ((InMemoryCache.asCache V).run c ops).2.store key = some e := by
  induction ops generalizing c with
  | nil => exact hs
  | cons o rest ih =>
    simp only [Cache.run]
    exact ih _ (fun o ho => h o (List.mem_cons_of_mem _ ho))
      (InMemoryCache.step_store_of_not_writes_sync c o key e (h o (List.mem_cons_self _ _)) hs hz)

/-- What `MemoryCache.Get` returns for an entry written by `Set` with a positive
`ttl` at clock reading `s`, read at a clock reading `t` in the `int64` range. -/
theorem MemoryCache.Get_of_Set_entry {V : Type} (c : MemoryCache V) (k : String)
    (v : Interface V) (ttl : Duration) (s t : Clock)
    (hs : c.store k = some ⟨v, wrapInt64 (s + ttl)⟩)
    (httl : 0 < ttl) (hd : Duration.valid ttl) (hsv : Clock.valid s) (ht : Clock.valid t) :
    (c.Get t k).1 = if (s : Int) + ttl < t then (none, false) else (v, true) := by
  rw [MemoryCache.Get_present c t k _ hs]
  simp only [Clock.valid, Duration.valid, maxInt64, minInt64] at hsv ht hd
  have httl2 : (0 : Int) < ttl := httl
  rw [wrapInt64_of_inRange t (by unfold minInt64; omega) (by unfold maxInt64; omega)]
  by_cases ho : (s : Int) + ttl ≤ 9223372036854775807
  · rw [wrapInt64_of_inRange _ (by unfold minInt64; omega) (by unfold maxInt64; omega)]
    by_cases hlt : (s : Int) + ttl < t
    · rw [if_pos hlt, if_pos ⟨by dsimp only; omega, hlt⟩]
    · rw [if_neg hlt, if_neg (fun h => hlt h.2)]
  · have hneg := wrapInt64_neg_of_overflow ((s : Int) + ttl)
      (by unfold maxInt64; omega) (by unfold maxInt64; omega)
    have hlt : ¬ ((s : Int) + ttl < t) := by omega
    rw [if_neg hlt]
    dsimp only
    rw [if_neg (fun h => by omega)]

theorem MemoryCache.Set_store_self {V : Type} (c : MemoryCache V) (k : String)
    (v : Interface V) (ttl : Duration) (s : Clock) :
    (c.Set s k v ttl).2.store k =
      some ⟨v, if ttl > 0 then wrapInt64 (s + ttl) else 0⟩ := by
  simp [MemoryCache.Set, UnixNano_Now_Add]

theorem InMemoryCache.Set_store_self_sync {V : Type} (c : InMemoryCache V) (k : String)
    (v : Interface V) (ttl : Duration) (s : Clock) :
    (c.Set s k v ttl).2.store k =
      some (if ttl > 0 then ⟨v, (Now s).Add ttl⟩ else ⟨v, Time.zero⟩) := by
  simp [InMemoryCache.Set]

/-- What `InMemoryCache.Get` returns for an entry written by `Set` with a positive
`ttl` at clock reading `s`. -/
theorem InMemoryCache.Get_of_Set_entry_sync {V : Type} (c : InMemoryCache V) (k : String)
    (v : Interface V) (ttl : Duration) (s t : Clock)
    (hs : c.store k = some ⟨v, (Now s).Add ttl⟩) (httl : 0 < ttl) :
    (c.Get t k).1 = if (t : Int) < s + ttl then (v, true) else (none, false) := by
  rw [InMemoryCache.Get_present_sync c t k _ hs]
  simp only [Now, Time.Add, unixToInternal]
  have httl2 : (0 : Int) < ttl := httl
  by_cases hlt : (t : Int) < s + ttl
  · rw [if_pos hlt, if_pos (Or.inr (by omega))]
  · rw [if_neg hlt, if_neg (fun h => by rcases h with h | h <;> omega)]

/-! ## The paths through the decorators -/

theorem CacheDecorator.Cacheable_hit {σ V P : Type} (impl : Cache σ V) (d : CacheDecorator σ)
    (tGet tSet : Clock) (key : String) (ttl : Duration) (fn : Producer P (Interface V))
    (p : P) (cached : Interface V) (c1 : σ)
    (hget : impl.Get d.cache tGet key = ((cached, true), c1)) :
    d.Cacheable impl tGet tSet key ttl fn p = ((cached, none), ⟨c1, d.metrics.RecordHit⟩, p) := by
  unfold CacheDecorator.Cacheable
  rw [hget]

theorem CacheDecorator.Cacheable_miss_err {σ V P : Type} (impl : Cache σ V)
    (d : CacheDecorator σ) (tGet tSet : Clock) (key : String) (ttl : Duration)
    (fn : Producer P (Interface V)) (p : P) (r : Interface V) (e : String)
    (hget : (impl.Get d.cache tGet key).1.2 = false) (hfn : (fn p).1 = (r, some e)) :
    d.Cacheable impl tGet tSet key ttl fn p
      = ((none, some e), ⟨(impl.Get d.cache tGet key).2, d.metrics.RecordMiss⟩, (fn p).2) := by
  unfold CacheDecorator.Cacheable
  rcases hg : impl.Get d.cache tGet key with ⟨⟨cached, found⟩, c1⟩
  rw [hg] at hget
  simp only at hget
  subst hget
  rcases hf : fn p with ⟨⟨r2, e2⟩, p1⟩
  rw [hf] at hfn
  simp only [Prod.mk.injEq] at hfn
  obtain ⟨rfl, rfl⟩ := hfn
  rfl

theorem CacheDecorator.Cacheable_miss_ok {σ V P : Type} (impl : Cache σ V)
    (d : CacheDecorator σ) (tGet tSet : Clock) (key : String) (ttl : Duration)
    (fn : Producer P (Interface V)) (p : P) (r : Interface V)
    (hget : (impl.Get d.cache tGet key).1.2 = false) (hfn : (fn p).1 = (r, none)) :
    d.Cacheable impl tGet tSet key ttl fn p
      = ((r, none),
          ⟨(impl.Set (impl.Get d.cache tGet key).2 tSet key r ttl).2,
            if (impl.Set (impl.Get d.cache tGet key).2 tSet key r ttl).1 = none
            then d.metrics.RecordMiss else d.metrics.RecordMiss.RecordError⟩,
          (fn p).2) := by
  unfold CacheDecorator.Cacheable
  rcases hg : impl.Get d.cache tGet key with ⟨⟨cached, found⟩, c1⟩
  rw [hg] at hget
  simp only at hget
  subst hget
  rcases hf : fn p with ⟨⟨r2, e2⟩, p1⟩
  rw [hf] at hfn
  simp only [Prod.mk.injEq] at hfn
  obtain ⟨rfl, rfl⟩ := hfn
  simp only
  rcases hs : impl.Set c1 tSet key r2 ttl with ⟨serr, c2⟩
  cases serr with
  | none => simp
  | some e => simp

theorem CacheDecorator.CachePut_ok {σ V P : Type} (impl : Cache σ V)
    (d : CacheDecorator σ) (tSet : Clock) (key : String) (ttl : Duration)
    (fn : Producer P (Interface V)) (p : P) (r : Interface V)
    (hfn : (fn p).1 = (r, none)) :
    d.CachePut impl tSet key ttl fn p
      = ((r, none),
          ⟨(impl.Set d.cache tSet key r ttl).2,
            if (impl.Set d.cache tSet key r ttl).1 = none
            then d.metrics else d.metrics.RecordError⟩,
          (fn p).2) := by
  unfold CacheDecorator.CachePut
  rcases hf : fn p with ⟨⟨r2, e2⟩, p1⟩
  rw [hf] at hfn
  simp only [Prod.mk.injEq] at hfn
  obtain ⟨rfl, rfl⟩ := hfn
  simp only
  rcases hs : impl.Set d.cache tSet key r2 ttl with ⟨serr, c2⟩
  cases serr with
  | none => simp
  | some e => simp

theorem Cacheable_generic_miss_err {σ V T P : Type} (ty : GoType V T) (impl : Cache σ V)
    (keyGenerator : List (Interface V) → String) (ttl : Duration)
    (fn : List (Interface V) → Producer P T) (args : List (Interface V))
    (c : σ) (tGet tSet : Clock) (p : P) (out : List String) (r : T) (e : String)
    (hget : (impl.Get c tGet (keyGenerator args)).1.2 = false)
    (hfn : (fn args p).1 = (r, some e)) :
    Cacheable ty impl keyGenerator ttl fn args c tGet tSet p out
      = ((ty.zero, some e), (impl.Get c tGet (keyGenerator args)).2, (fn args p).2, out) := by
  unfold Cacheable
  rcases hg : impl.Get c tGet (keyGenerator args) with ⟨⟨cached, found⟩, c1⟩
  rw [hg] at hget
  simp only at hget
  subst hget
  rcases hf : fn args p with ⟨⟨r2, e2⟩, p1⟩
  rw [hf] at hfn
  simp only [Prod.mk.injEq] at hfn
  obtain ⟨rfl, rfl⟩ := hfn
  simp only [hg, hf]

theorem Producer.counted_apply {P R : Type} (fn : Producer P R) (p : P) (n : Nat) :
    fn.counted (p, n) = ((fn p).1, ((fn p).2, n + 1)) := rfl

/-- A lookup in `MemoryCache` that finds nothing finds nothing at any later clock
reading in the `int64` range either. -/
theorem MemoryCache.Get_miss_later {V : Type} (c : MemoryCache V) (key : String)
    (t1 t2 : Clock) (h12 : t1 ≤ t2) (h2 : Clock.valid t2)
    (hmiss : (c.Get t1 key).1.2 = false) : (c.Get t2 key).1 = (none, false) := by
  have h12b : @LE.le Nat _ t1 t2 := h12
  simp only [Clock.valid, maxInt64] at h2
  cases hs : c.store key with
  | none => exact MemoryCache.Get_absent c t2 key hs
  | some itm =>
    rw [MemoryCache.Get_present c t1 key itm hs] at hmiss
    rw [MemoryCache.Get_present c t2 key itm hs]
    rw [wrapInt64_of_inRange t1 (by unfold minInt64; omega) (by unfold maxInt64; omega)]
      at hmiss
    rw [wrapInt64_of_inRange t2 (by unfold minInt64; omega) (by unfold maxInt64; omega)]
    by_cases hexp : 0 < itm.expiration ∧ itm.expiration < (t1 : Int)
    · rw [if_pos ⟨hexp.1, by omega⟩]
    · rw [if_neg hexp] at hmiss
      simp at hmiss

/-- After a lookup in `InMemoryCache` that finds nothing, the table holds no entry
for the key. -/
theorem InMemoryCache.Get_miss_store {V : Type} (c : InMemoryCache V) (key : String)
    (t1 : Clock) (hmiss : (c.Get t1 key).1.2 = false) :
    (c.Get t1 key).2.store key = none := by
  cases hs : c.store key with
  | none => rw [InMemoryCache.Get_absent_sync c t1 key hs]; exact hs
  | some e =>
    rw [InMemoryCache.Get_present_sync c t1 key e hs] at hmiss ⊢
    split
    · rename_i h
      rw [if_pos h] at hmiss
      simp at hmiss
    · simp

/-! ## Sequences of calls -/

/-- The value returned by the call at position `i` of a run is the value that call
returns in the state reached by the calls before it. -/
theorem Cache.run_getElem? {σ V : Type} (impl : Cache σ V) (ops : List (Clock × Op V))
    (c : σ) (i : Nat) :
    (impl.run c ops).1[i]? =
      (ops[i]?).map (fun o => (impl.step (impl.run c (ops.take i)).2 o).1) := by
  induction ops generalizing c i with
  | nil => simp [Cache.run]
  | cons o rest ih =>
    cases i with
    | zero => simp [Cache.run]
    | succ j =>
      simp only [Cache.run, List.getElem?_cons_succ, List.take_succ_cons]
      exact ih _ j

theorem lastWrite_mem {V : Type} (key : String) (ops : List (Clock × Op V))
    (w : Clock × Op V) (h : lastWrite key ops = some w) : w ∈ ops := by
  induction ops with
  | nil => simp [lastWrite] at h
  | cons o rest ih =>
    simp only [lastWrite] at h
    cases hr : lastWrite key rest with
    | some w2 =>
      rw [hr] at h
      simp only [Option.some.injEq] at h
      subst h
      exact List.mem_cons_of_mem _ (ih hr)
    | none =>
      rw [hr] at h
      by_cases hw : o.2.writes key = true
      · simp only [hw, if_true, Option.some.injEq] at h
        subst h
        exact List.mem_cons_self _ _
      · simp [hw] at h

/-- In a sequence with non-decreasing clock readings, every call before position
`i` has a clock reading not after the one at position `i`. -/
theorem clock_le_of_mem_take {V : Type} (ops : List (Clock × Op V)) (i : Nat)
    (w x : Clock × Op V) (hs : clockNonDecreasing ops) (hx : ops[i]? = some x)
    (hw : w ∈ ops.take i) : w.1 ≤ x.1 := by
  induction ops generalizing i with
  | nil => simp at hx
  | cons o rest ih =>
    unfold clockNonDecreasing at hs
    rw [List.pairwise_cons] at hs
    cases i with
    | zero => simp at hw
    | succ j =>
      simp only [List.getElem?_cons_succ] at hx
      simp only [List.take_succ_cons, List.mem_cons] at hw
      rcases hw with rfl | hw
      · exact hs.1 x (List.getElem?_mem hx)
      · exact ih j hs.2 hx hw

/-- The entry a run of `MemoryCache` holds under `key` is the one the sequence found
at the start, when no call wrote `key`, and otherwise the one written by the most
recent call that wrote `key`, which then is a `Set`. -/
theorem MemoryCache.run_store_lastWrite {V : Type} (ops : List (Clock × Op V))
    (c : MemoryCache V) (key : String) (itm : item V)
    (h : ((MemoryCache.asCache V).run c ops).2.store key = some itm) :
    (lastWrite key ops = none ∧ c.store key = some itm) ∨
    (∃ s v ttl, lastWrite key ops = some (s, Op.set key v ttl) ∧
      itm = ⟨v, if ttl > 0 then wrapInt64 (s + ttl) else 0⟩) := by
  induction ops generalizing c with
  | nil => exact Or.inl ⟨rfl, h⟩
  | cons o rest ih =>
    simp only [Cache.run] at h
    rcases ih _ h with ⟨hn, hst⟩ | ⟨s, v, ttl, hl, hi⟩
    · simp only [lastWrite, hn]
      by_cases hw : o.2.writes key = true
      · right
        obtain ⟨now, op⟩ := o
        cases op with
        | get k => simp [Op.writes] at hw
        | set k v ttl =>
          have hk : k = key := by simpa [Op.writes] using hw
          subst hk
          have hst2 : (c.Set now k v ttl).2.store k = some itm := hst
          rw [MemoryCache.Set_store_self] at hst2
          simp only [Option.some.injEq] at hst2
          exact ⟨now, v, ttl, by simp [Op.writes], hst2.symm⟩
        | delete k =>
          have hk : k = key := by simpa [Op.writes] using hw
          subst hk
          have hst2 : (c.Delete k).2.store k = some itm := hst
          simp [MemoryCache.Delete] at hst2
        | clear =>
          have hst2 : (c.Clear).2.store key = some itm := hst
          simp [MemoryCache.Clear] at hst2
      · left
        have hw2 : o.2.writes key = false := by simpa using hw
        rw [MemoryCache.step_store_of_not_writes c o key hw2] at hst
        exact ⟨by simp [hw2], hst⟩
    · right
      exact ⟨s, v, ttl, by simp only [lastWrite, hl], hi⟩

/-- A call of `InMemoryCache` other than `Set(key)`, `Delete(key)` and `Clear` never
creates or changes the entry of `key`: an entry held afterwards was held before. -/
theorem InMemoryCache.step_store_some_of_not_writes {V : Type} (c : InMemoryCache V)
    (o : Clock × Op V) (key : String) (e : CacheEntry V) (h : o.2.writes key = false)
    (hs : ((InMemoryCache.asCache V).step c o).2.store key = some e) :
    c.store key = some e := by
  obtain ⟨now, op⟩ := o
  cases op with
  | get k =>
    simp only [Cache.step, InMemoryCache.asCache] at hs
    cases hs2 : c.store k with
    | none => rw [InMemoryCache.Get_absent_sync c now k hs2] at hs; exact hs
    | some e2 =>
      rw [InMemoryCache.Get_present_sync c now k e2 hs2] at hs
      split at hs
      · exact hs
      · by_cases hk : key = k
        · subst hk
          simp at hs
        · simpa [Function.update_noteq hk] using hs
  | set k v ttl =>
    have hk : key ≠ k := by
      intro e; subst e; simp [Op.writes] at h
    simpa [Cache.step, InMemoryCache.asCache, InMemoryCache.Set, Function.update_noteq hk]
      using hs
  | delete k =>
    have hk : key ≠ k := by
      intro e; subst e; simp [Op.writes] at h
    simpa [Cache.step, InMemoryCache.asCache, InMemoryCache.Delete, Function.update_noteq hk]
      using hs
  | clear => simp [Op.writes] at h

/-- The entry a run of `InMemoryCache` holds under `key` is the one the sequence
found at the start, when no call wrote `key`, and otherwise the one written by the
most recent call that wrote `key`, which then is a `Set`. -/
theorem InMemoryCache.run_store_lastWrite_sync {V : Type} (ops : List (Clock × Op V))
    (c : InMemoryCache V) (key : String) (e : CacheEntry V)
    (h : ((InMemoryCache.asCache V).run c ops).2.store key = some e) :
    (lastWrite key ops = none ∧ c.store key = some e) ∨
    (∃ s v ttl, lastWrite key ops = some (s, Op.set key v ttl) ∧
      e = if ttl > 0 then ⟨v, (Now s).Add ttl⟩ else ⟨v, Time.zero⟩) := by
  induction ops generalizing c with
  | nil => exact Or.inl ⟨rfl, h⟩
  | cons o rest ih =>
    simp only [Cache.run] at h
    rcases ih _ h with ⟨hn, hst⟩ | ⟨s, v, ttl, hl, hi⟩
    · simp only [lastWrite, hn]
      by_cases hw : o.2.writes key = true
      · right
        obtain ⟨now, op⟩ := o
        cases op with
        | get k => simp [Op.writes] at hw
        | set k v ttl =>
          have hk : k = key := by simpa [Op.writes] using hw
          subst hk
          have hst2 : (c.Set now k v ttl).2.store k = some e := hst
          rw [InMemoryCache.Set_store_self_sync] at hst2
          simp only [Option.some.injEq] at hst2
          exact ⟨now, v, ttl, by simp [Op.writes], hst2.symm⟩
        | delete k =>
          have hk : k = key := by simpa [Op.writes] using hw
          subst hk
          have hst2 : (c.Delete k).2.store k = some e := hst
          simp [InMemoryCache.Delete] at hst2
        | clear =>
          have hst2 : (c.Clear).2.store key = some e := hst
          simp [InMemoryCache.Clear] at hst2
      · left
        have hw2 : o.2.writes key = false := by simpa using hw
        exact ⟨by simp [hw2], InMemoryCache.step_store_some_of_not_writes c o key e hw2 hst⟩
    · right
      exact ⟨s, v, ttl, by simp only [lastWrite, hl], hi⟩

/-! ## Agreement of the two local stores -/

theorem lastWrite_append_singleton {V : Type} (key : String) (pre : List (Clock × Op V))
    (o : Clock × Op V) :
    lastWrite key (pre ++ [o]) = if o.2.writes key then some o else lastWrite key pre := by
  induction pre with
  | nil => simp [lastWrite]
  | cons p pre ih =>
    rw [List.cons_append]
    simp only [lastWrite]
    rw [ih]
    by_cases hw : o.2.writes key = true
    · simp [hw]
    · simp [hw]

theorem setData_eq_some {V : Type} (w : Option (Clock × Op V)) (s : Clock)
    (v : Interface V) (ttl : Duration) (h : setData w = some (s, v, ttl)) :
    ∃ k, w = some (s, Op.set k v ttl) := by
  cases w with
  | none => simp [setData] at h
  | some p =>
    obtain ⟨s2, op⟩ := p
    cases op with
    | get k => simp [setData] at h
    | set k v2 ttl2 =>
      simp only [setData, Option.some.injEq, Prod.mk.injEq] at h
      obtain ⟨rfl, rfl, rfl⟩ := h
      exact ⟨k, rfl⟩
    | delete k => simp [setData] at h
    | clear => simp [setData] at h

/-- A call that does not write `k` and after which both tables hold under `k` what
they held before keeps the correspondence under `k`. -/
theorem keyCorresponds_of_unchanged {V : Type} (pre : List (Clock × Op V))
    (o : Clock × Op V) (m m2 : MemoryCache V) (c c2 : InMemoryCache V) (k : String)
    (hw : o.2.writes k = false) (hm : m2.store k = m.store k) (hc : c2.store k = c.store k)
    (h : keyCorresponds pre m c k) : keyCorresponds (pre ++ [o]) m2 c2 k := by
  unfold keyCorresponds at h ⊢
  rw [lastWrite_append_singleton, hw, hm, hc]
  simp only [Bool.false_eq_true, if_false]
  rcases h with h | ⟨s, v, ttl, h1, h2, h3⟩
  · exact Or.inl h
  · refine Or.inr ⟨s, v, ttl, h1, h2, ?_⟩
    rcases h3 with h3 | ⟨h3, h4, p, hp, h5⟩
    · exact Or.inl h3
    · exact Or.inr ⟨h3, h4, p, List.mem_append_left _ hp, h5⟩

/-- A `Set` keeps the correspondence of the two tables. -/
theorem storesCorrespond_set {V : Type} (pre : List (Clock × Op V)) (m : MemoryCache V)
    (c : InMemoryCache V) (t : Clock) (k : String) (v : Interface V) (ttl : Duration)
    (hinv : storesCorrespond pre m c) :
    storesCorrespond (pre ++ [(t, Op.set k v ttl)]) (m.Set t k v ttl).2 (c.Set t k v ttl).2 := by
  intro k2
  by_cases hk : k2 = k
  · subst hk
    refine Or.inr ⟨t, v, ttl, ?_, ?_, Or.inl ?_⟩
    · rw [lastWrite_append_singleton]
      simp [Op.writes, setData]
    · rw [MemoryCache.Set_store_self, MemoryCache.Set_store_self]
    · rw [InMemoryCache.Set_store_self_sync, InMemoryCache.Set_store_self_sync]
  · refine keyCorresponds_of_unchanged pre _ m _ c _ k2 ?_ ?_ ?_ (hinv k2)
    · simpa [Op.writes] using fun h : k = k2 => hk h.symm
    · simp [MemoryCache.Set, Function.update_noteq hk]
    · simp [InMemoryCache.Set, Function.update_noteq hk]

/-- A `Delete` keeps the correspondence of the two tables. -/
theorem storesCorrespond_delete {V : Type} (pre : List (Clock × Op V)) (m : MemoryCache V)
    (c : InMemoryCache V) (t : Clock) (k : String)
    (hinv : storesCorrespond pre m c) :
    storesCorrespond (pre ++ [(t, Op.delete k)]) (m.Delete k).2 (c.Delete k).2 := by
  intro k2
  by_cases hk : k2 = k
  · subst hk
    refine Or.inl ⟨?_, ?_, ?_⟩
    · rw [lastWrite_append_singleton]
      simp [Op.writes, setData]
    · simp [MemoryCache.Delete]
    · simp [InMemoryCache.Delete]
  · refine keyCorresponds_of_unchanged pre _ m _ c _ k2 ?_ ?_ ?_ (hinv k2)
    · simpa [Op.writes] using fun h : k = k2 => hk h.symm
    · simp [MemoryCache.Delete, Function.update_noteq hk]
    · simp [InMemoryCache.Delete, Function.update_noteq hk]

/-- A `Clear` keeps the correspondence of the two tables. -/
theorem storesCorrespond_clear {V : Type} (pre : List (Clock × Op V)) (m : MemoryCache V)
    (c : InMemoryCache V) (t : Clock) :
    storesCorrespond (pre ++ [(t, Op.clear)]) m.Clear.2 c.Clear.2 := by
  intro k2
  refine Or.inl ⟨?_, rfl, rfl⟩
  rw [lastWrite_append_singleton]
  simp [Op.writes, setData]

/-- A `Get` that is not made exactly at the expiration instant of the entry it looks
up returns the same pair in both stores and keeps the correspondence of the two
tables. The clock readings so far are not after `t`, which is in the `int64` range. -/
theorem storesCorrespond_get {V : Type} (pre : List (Clock × Op V)) (m : MemoryCache V)
    (c : InMemoryCache V) (t : Clock) (k : String)
    (hinv : storesCorrespond pre m c)
    (hle : ∀ p ∈ pre, p.1 ≤ t) (hvt : Clock.valid t) (hvpre : ∀ p ∈ pre, p.2.ttlValid)
    (hb : getAwayFromExpiration pre (t, Op.get k) = true) :
    (m.Get t k).1 = (c.Get t k).1 ∧
    storesCorrespond (pre ++ [(t, Op.get k)]) m (c.Get t k).2 := by
  have hkeep : ∀ c2 : InMemoryCache V, (∀ k2, k2 ≠ k → c2.store k2 = c.store k2) →
      keyCorresponds (pre ++ [(t, Op.get k)]) m c2 k →
      storesCorrespond (pre ++ [(t, Op.get k)]) m c2 := by
    intro c2 hc2 hk k2
    by_cases hk2 : k2 = k
    · subst hk2
      exact hk
    · exact keyCorresponds_of_unchanged pre _ m m c c2 k2 rfl rfl (hc2 k2 hk2) (hinv k2)
  have hsame : storesCorrespond (pre ++ [(t, Op.get k)]) m c := fun k2 =>
    keyCorresponds_of_unchanged pre _ m m c c k2 rfl rfl rfl (hinv k2)
  rcases hinv k with ⟨_, hm, hc⟩ | ⟨s, v, ttl, hd, hm, hc⟩
  · rw [MemoryCache.Get_absent m t k hm, InMemoryCache.Get_absent_sync c t k hc]
    exact ⟨rfl, hsame⟩
  · obtain ⟨k0, hl⟩ := setData_eq_some _ s v ttl hd
    have hmem := lastWrite_mem k pre _ hl
    have hst : @LE.le Nat _ s t := hle _ hmem
    have hvd : Duration.valid ttl := hvpre _ hmem
    have hvs : Clock.valid s := by
      simp only [Clock.valid, maxInt64] at hvt ⊢
      omega
    simp only [getAwayFromExpiration, hd, Bool.not_eq_true', Bool.and_eq_false_iff,
      decide_eq_false_iff_not] at hb
    rw [MemoryCache.Set_store_self] at hm
    rw [InMemoryCache.Set_store_self_sync] at hc
    by_cases httl : ttl > 0
    · have httl2 : (0 : Int) < ttl := httl
      have hne : ¬ ((t : Int) = s + ttl) := by
        rcases hb with h | h
        · exact absurd httl h
        · exact h
      rw [if_pos httl] at hm hc
      rw [MemoryCache.Get_of_Set_entry m k v ttl s t hm httl hvd hvs hvt]
      rcases hc with hc | ⟨hc, _, p, hp, hlt⟩
      · rw [InMemoryCache.Get_present_sync c t k _ hc]
        simp only [Now, Time.Add, unixToInternal]
        by_cases h1 : (t : Int) < s + ttl
        · rw [if_neg (by omega), if_pos (Or.inr (by omega))]
          exact ⟨rfl, hsame⟩
        · have h2 : (s : Int) + ttl < t := by omega
          rw [if_pos h2, if_neg (fun h => by rcases h with h | h <;> omega)]
          refine ⟨rfl, hkeep _ (fun k2 hk2 => by simp [Function.update_noteq hk2]) ?_⟩
          refine Or.inr ⟨s, v, ttl, ?_, ?_, Or.inr ⟨by simp, httl, (t, Op.get k), by simp, h2⟩⟩
          · rw [lastWrite_append_singleton]
            simpa [Op.writes] using hd
          · rw [MemoryCache.Set_store_self, if_pos httl]
            exact hm
      · have hpt : @LE.le Nat _ p.1 t := hle p hp
        rw [InMemoryCache.Get_absent_sync c t k hc, if_pos (by omega)]
        exact ⟨rfl, hsame⟩
    · rw [if_neg httl] at hm hc
      rcases hc with hc | ⟨_, h, _⟩
      · rw [MemoryCache.Get_present m t k _ hm, if_neg (fun h => lt_irrefl _ h.1),
          InMemoryCache.Get_present_sync c t k _ hc]
        simp only [Time.zero, true_or, if_true]
        exact ⟨trivial, hsame⟩
      · exact absurd h httl

/-- From corresponding tables the two stores return the same values on every
sequence of calls with non-decreasing clock readings in the `int64` range and `int64`
`ttl`s in which no `Get` is made exactly at an expiration instant. -/
theorem stores_agree_from {V : Type} (rest : List (Clock × Op V)) :
    ∀ (pre : List (Clock × Op V)) (m : MemoryCache V) (c : InMemoryCache V),
      storesCorrespond pre m c →
      (∀ p ∈ pre, ∀ o ∈ rest, p.1 ≤ o.1) → clockNonDecreasing rest →
      (∀ p ∈ pre, p.2.ttlValid) → (∀ o ∈ rest, Clock.valid o.1 ∧ o.2.ttlValid) →
      noGetAtExpirationFrom pre rest = true →
      ((MemoryCache.asCache V).run m rest).1 = ((InMemoryCache.asCache V).run c rest).1 := by
  induction rest with
  | nil => intros; rfl
  | cons o rest ih =>
    intro pre m c hinv hle hs hvpre hv hb
    unfold clockNonDecreasing at hs
    rw [List.pairwise_cons] at hs
    simp only [noGetAtExpirationFrom, Bool.and_eq_true] at hb
    have hvo := hv o (List.mem_cons_self _ _)
    have hle2 : ∀ p ∈ pre ++ [o], ∀ o2 ∈ rest, p.1 ≤ o2.1 := by
      intro p hp o2 ho2
      rcases List.mem_append.mp hp with hp | hp
      · exact hle p hp o2 (List.mem_cons_of_mem _ ho2)
      · rw [List.mem_singleton] at hp
        subst hp
        exact hs.1 o2 ho2
    have hvpre2 : ∀ p ∈ pre ++ [o], p.2.ttlValid := by
      intro p hp
      rcases List.mem_append.mp hp with hp | hp
      · exact hvpre p hp
      · rw [List.mem_singleton] at hp
        subst hp
        exact hvo.2
    have hv2 : ∀ o2 ∈ rest, Clock.valid o2.1 ∧ o2.2.ttlValid :=
      fun o2 ho2 => hv o2 (List.mem_cons_of_mem _ ho2)
    have hstep : ((MemoryCache.asCache V).step m o).1 = ((InMemoryCache.asCache V).step c o).1 ∧
        storesCorrespond (pre ++ [o]) ((MemoryCache.asCache V).step m o).2
          ((InMemoryCache.asCache V).step c o).2 := by
      obtain ⟨t, op⟩ := o
      cases op with
      | get k =>
        have hg := storesCorrespond_get pre m c t k hinv
          (fun p hp => hle p hp _ (List.mem_cons_self _ _)) hvo.1 hvpre hb.1
        simp only [Cache.step, MemoryCache.asCache, InMemoryCache.asCache,
          MemoryCache.Get_snd]
        refine ⟨?_, hg.2⟩
        rw [show (m.Get t k).1.1 = (c.Get t k).1.1 from by rw [hg.1],
          show (m.Get t k).1.2 = (c.Get t k).1.2 from by rw [hg.1]]
      | set k v ttl => exact ⟨rfl, storesCorrespond_set pre m c t k v ttl hinv⟩
      | delete k => exact ⟨rfl, storesCorrespond_delete pre m c t k hinv⟩
      | clear => exact ⟨rfl, storesCorrespond_clear pre m c t⟩
    simp only [Cache.run]
    rw [hstep.1, ih (pre ++ [o]) _ _ hstep.2 hle2 hs.2 hvpre2 hv2 hb.2]

/-- Started fresh, `MemoryCache` and `InMemoryCache` return the same values on every
sequence of calls with non-decreasing clock readings in the `int64` range and `int64`
`ttl`s in which no `Get` is made exactly at the expiration instant of the entry it
looks up. -/
theorem stores_agree_away_from_expiration_instant {V : Type} (ops : List (Clock × Op V))
    (hs : clockNonDecreasing ops) (hv : ∀ o ∈ ops, Clock.valid o.1 ∧ o.2.ttlValid)
    (hb : noGetAtExpirationFrom [] ops = true) :
    ((MemoryCache.asCache V).run NewMemoryCache ops).1
      = ((InMemoryCache.asCache V).run NewInMemoryCache ops).1 :=
  stores_agree_from ops [] NewMemoryCache NewInMemoryCache
    (fun _ => Or.inl ⟨rfl, rfl, rfl⟩) (fun p hp => by simp at hp) hs
    (fun p hp => by simp at hp) hv hb

/-- An instance of the agreement: an entry read before and after its expiration
instant, overwritten, deleted and cleared. -/
theorem stores_agree_example :
    ((MemoryCache.asCache Nat).run NewMemoryCache
        [(5, Op.set "k" (some 1) 10), (14, Op.get "k"), (16, Op.get "k"),
          (17, Op.set "k" (some 2) 0), (18, Op.get "k"), (19, Op.delete "k"),
          (20, Op.get "k"), (21, Op.clear)]).1
      = ((InMemoryCache.asCache Nat).run NewInMemoryCache
        [(5, Op.set "k" (some 1) 10), (14, Op.get "k"), (16, Op.get "k"),
          (17, Op.set "k" (some 2) 0), (18, Op.get "k"), (19, Op.delete "k"),
          (20, Op.get "k"), (21, Op.clear)]).1 :=
  stores_agree_away_from_expiration_instant _ (by decide) (by decide) (by decide)

/-! ## Key generation -/

/-- The loop of `DefaultKeyGenerator`, started from any key built so far, appends
each argument's text followed by `":"`. -/
theorem DefaultKeyGenerator_foldl {W : Type} (jsonMarshal : Interface (Dyn W) → Option String)
    (args : List (Interface (Dyn W))) (acc : String) :
    args.foldl (fun key arg =>
      (match Dyn.assertString arg with
        | some str => key ++ str
        | none =>
          match jsonMarshal arg with
          | some bytes => key ++ bytes
          | none => key) ++ ":") acc
      = acc ++ terminatedKey jsonMarshal args := by
  induction args generalizing acc with
  | nil => simp [terminatedKey]
  | cons arg rest ih =>
    rw [List.foldl_cons, ih]
    simp only [terminatedKey, argText]
    cases Dyn.assertString arg with
    | some str => simp [String.append_assoc]
    | none =>
      cases jsonMarshal arg with
      | some bytes => simp [String.append_assoc]
      | none => simp [String.append_assoc]

/-- Joining texts with `":"` between them and closing with one more `":"` gives
each text followed by `":"`. -/
theorem intercalate_go_terminated {W : Type}
    (jsonMarshal : Interface (Dyn W) → Option String)
    (args : List (Interface (Dyn W))) (acc : String) :
    String.intercalate.go acc ":" (args.map (argText jsonMarshal)) ++ ":"
      = acc ++ ":" ++ terminatedKey jsonMarshal args := by
  induction args generalizing acc with
  | nil => simp [String.intercalate.go, terminatedKey]
  | cons arg rest ih =>
    simp only [List.map_cons, String.intercalate.go, terminatedKey]
    rw [ih]
    simp [String.append_assoc]

theorem DefaultKeyGenerator_eq_terminatedKey {W : Type}
    (jsonMarshal : Interface (Dyn W) → Option String) (args : List (Interface (Dyn W))) :
    DefaultKeyGenerator jsonMarshal args = terminatedKey jsonMarshal args := by
  unfold DefaultKeyGenerator
  rw [DefaultKeyGenerator_foldl, String.empty_append]

theorem terminatedKey_append {W : Type} (jsonMarshal : Interface (Dyn W) → Option String)
    (xs ys : List (Interface (Dyn W))) :
    terminatedKey jsonMarshal (xs ++ ys)
      = terminatedKey jsonMarshal xs ++ terminatedKey jsonMarshal ys := by
  induction xs with
  | nil => simp [terminatedKey]
  | cons x xs ih =>
    rw [List.cons_append]
    simp only [terminatedKey]
    rw [ih]
    simp [String.append_assoc]

/-! ## Entries after a `Set`, and the generic decorator -/

/-- In `MemoryCache`, an entry is found after its `Set` as long as it has not expired. -/
theorem MemoryCache.Get_after_Set_live {V : Type} (m : MemoryCache V) (k : String)
    (v : Interface V) (ttl : Duration) (s t : Clock)
    (hlive : ttl ≤ 0 ∨ (t : Int) < s + ttl)
    (hvs : Clock.valid s) (hvt : Clock.valid t) (hvd : Duration.valid ttl) :
    ((m.Set s k v ttl).2.Get t k).1 = (v, true) := by
  by_cases httl : ttl > 0
  · have hlt : (t : Int) < s + ttl := by
      rcases hlive with h | h
      · exact absurd httl (not_lt.mpr h)
      · exact h
    have hstore : (m.Set s k v ttl).2.store k = some ⟨v, wrapInt64 (s + ttl)⟩ := by
      rw [MemoryCache.Set_store_self, if_pos httl]
    rw [MemoryCache.Get_of_Set_entry _ k v ttl s t hstore httl hvd hvs hvt, if_neg (by omega)]
  · have hstore : (m.Set s k v ttl).2.store k = some ⟨v, 0⟩ := by
      rw [MemoryCache.Set_store_self, if_neg httl]
    rw [MemoryCache.Get_present _ t k _ hstore, if_neg (fun h => lt_irrefl _ h.1)]

/-- In `InMemoryCache`, an entry is found after its `Set` as long as it has not
expired, and the lookup leaves the table as it is. -/
theorem InMemoryCache.Get_after_Set_live_sync {V : Type} (c : InMemoryCache V) (k : String)
    (v : Interface V) (ttl : Duration) (s t : Clock)
    (hlive : ttl ≤ 0 ∨ (t : Int) < s + ttl) :
    (c.Set s k v ttl).2.Get t k = ((v, true), (c.Set s k v ttl).2) := by
  by_cases httl : ttl > 0
  · have hlt : (t : Int) < s + ttl := by
      rcases hlive with h | h
      · exact absurd httl (not_lt.mpr h)
      · exact h
    have hstore : (c.Set s k v ttl).2.store k = some ⟨v, (Now s).Add ttl⟩ := by
      rw [InMemoryCache.Set_store_self_sync, if_pos httl]
    rw [InMemoryCache.Get_present_sync _ t k _ hstore]
    rw [if_pos (Or.inr (by simp only [Now, Time.Add]; omega))]
  · have hstore : (c.Set s k v ttl).2.store k = some ⟨v, Time.zero⟩ := by
      rw [InMemoryCache.Set_store_self_sync, if_neg httl]
    rw [InMemoryCache.Get_present_sync _ t k _ hstore]
    simp [Time.zero]

/-- A lookup in `InMemoryCache` that finds an entry leaves the table as it is. -/
theorem InMemoryCache.Get_found_snd {V : Type} (c : InMemoryCache V) (t : Clock) (k : String)
    (h : (c.Get t k).1.2 = true) : (c.Get t k).2 = c := by
  cases hs : c.store k with
  | none => rw [InMemoryCache.Get_absent_sync c t k hs]
  | some e =>
    rw [InMemoryCache.Get_present_sync c t k e hs] at h ⊢
    split
    · rfl
    · rename_i hn
      rw [if_neg hn] at h
      simp at h

/-- The generic `Cacheable[T]` on a hit: the cached value asserts to `T`. -/
theorem Cacheable_generic_hit {σ V T P : Type} (ty : GoType V T) (impl : Cache σ V)
    (keyGenerator : List (Interface V) → String) (ttl : Duration)
    (fn : List (Interface V) → Producer P T) (args : List (Interface V))
    (c : σ) (tGet tSet : Clock) (p : P) (out : List String) (cached : Interface V) (c1 : σ)
    (r : T) (hget : impl.Get c tGet (keyGenerator args) = ((cached, true), c1))
    (hassert : ty.assert cached = some r) :
    Cacheable ty impl keyGenerator ttl fn args c tGet tSet p out = ((r, none), c1, p, out) := by
  unfold Cacheable
  simp only [hget, hassert]

/-- The generic `Cacheable[T]` when the lookup finds nothing, or finds a value that
does not assert to `T`, the producer succeeds and the `Set` succeeds. -/
theorem Cacheable_generic_ok {σ V T P : Type} (ty : GoType V T) (impl : Cache σ V)
    (keyGenerator : List (Interface V) → String) (ttl : Duration)
    (fn : List (Interface V) → Producer P T) (args : List (Interface V))
    (c : σ) (tGet tSet : Clock) (p : P) (out : List String) (r : T)
    (hcall : (impl.Get c tGet (keyGenerator args)).1.2 = false ∨
      ty.assert (impl.Get c tGet (keyGenerator args)).1.1 = none)
    (hfn : (fn args p).1 = (r, none))
    (hset : (impl.Set (impl.Get c tGet (keyGenerator args)).2 tSet (keyGenerator args)
      (ty.box r) ttl).1 = none) :
    Cacheable ty impl keyGenerator ttl fn args c tGet tSet p out
      = ((r, none),
          (impl.Set (impl.Get c tGet (keyGenerator args)).2 tSet (keyGenerator args)
            (ty.box r) ttl).2,
          (fn args p).2, out) := by
  unfold Cacheable
  rcases hg : impl.Get c tGet (keyGenerator args) with ⟨⟨cached, found⟩, c1⟩
  rw [hg] at hcall hset
  simp only at hcall hset
  rcases hf : fn args p with ⟨⟨r2, e2⟩, p1⟩
  rw [hf] at hfn
  simp only [Prod.mk.injEq] at hfn
  obtain ⟨rfl, rfl⟩ := hfn
  rcases hs : impl.Set c1 tSet (keyGenerator args) (ty.box r2) ttl with ⟨serr, c2⟩
  rw [hs] at hset
  simp only at hset
  subst hset
  cases found with
  | false => simp only [hg, hs]
  | true =>
    have ha : ty.assert cached = none := by
      rcases hcall with h | h
      · simp at h
      · exact h
    simp only [hg, ha, hs]

/-! ## The user service -/

/-- The statement that `FindByID` of the user repository sends: the column list is
the bracketed, blank-separated print of the slice, not a comma-separated list. -/
theorem NewUserRepository_findByIDQuery :
    NewUserRepository.base.findByIDQuery
      = "SELECT [id username email created_at updated_at] FROM users WHERE id = $1" := by
  decide

/-- When the database rejects the statement of `FindByID`, `UpdateUser` returns the
wrapped error and touches neither the database nor the cache. -/
theorem UserService.UpdateUser_of_rejected_lookup {ρ σ V : Type} (repo : UserRepository)
    (db : Database ρ) (impl : Cache σ V) (s : ρ) (c : σ) (tUpdate tDel1 tDel2 : Clock)
    (user : User) (e : String)
    (hrej : db.queryRow s repo.base.findByIDQuery [.int user.ID] = .failed e) :
    UserService.UpdateUser repo db impl s c tUpdate tDel1 tDel2 user
      = (Outcome.returned (some ("failed to find by ID: " ++ e)), s, c) := by
  unfold UserService.UpdateUser
  simp only [BaseRepository.FindByID, hrej]

/-- A second slip behind the lookup: whenever `FindByID` does return the stored user,
the username differs from the stored one and is not taken, the lookup by username
leaves `existingUser` nil and the email check that follows reads
`existingUser.Email`. -/
theorem UserService.UpdateUser_panics_of_new_username {ρ σ V : Type} (repo : UserRepository)
    (db : Database ρ) (impl : Cache σ V) (s : ρ) (c : σ) (tUpdate tDel1 tDel2 : Clock)
    (user existing : User)
    (hid : repo.base.FindByID db s user.ID = (some existing, none))
    (hname : user.Username ≠ existing.Username)
    (hfree : UserRepository.FindByUsername db s user.Username = (none, none)) :
    UserService.UpdateUser repo db impl s c tUpdate tDel1 tDel2 user
      = (Outcome.panicked, s, c) := by
  unfold UserService.UpdateUser
  simp only [hid, hfree, if_pos hname]

/-! ## Claims about the local stores -/

/-- Claim C1: in `MemoryCache` and in `InMemoryCache`, after `Set(k, v, ttl)` with
`ttl > 0` at clock reading `s`, followed by any calls that do not operate on `k`,
`Get(k)` at a reading `t ≥ s` returns `(v, true)` when `t < s + ttl` and
`(nil, false)` when `t > s + ttl`. For `MemoryCache`, which keeps the expiration
as Unix nanoseconds in an `int64`, `t` is a reading in the `int64` range and `ttl`
an `int64`. -/
theorem C1_get_after_set_with_ttl {V : Type} (k : String) (v : Interface V) (ttl : Duration)
    (s t : Clock) (m : MemoryCache V) (c : InMemoryCache V) (ops : List (Clock × Op V))
    (httl : 0 < ttl) (hst : s ≤ t) (hops : ∀ o ∈ ops, o.2.touches k = false) :
    (Clock.valid t → Duration.valid ttl →
      ((t : Int) < s + ttl →
        (((MemoryCache.asCache V).run (m.Set s k v ttl).2 ops).2.Get t k).1 = (v, true)) ∧
      ((s : Int) + ttl < t →
        (((MemoryCache.asCache V).run (m.Set s k v ttl).2 ops).2.Get t k).1 = (none, false))) ∧
    (((t : Int) < s + ttl →
        (((InMemoryCache.asCache V).run (c.Set s k v ttl).2 ops).2.Get t k).1 = (v, true)) ∧
      ((s : Int) + ttl < t →
        (((InMemoryCache.asCache V).run (c.Set s k v ttl).2 ops).2.Get t k).1
          = (none, false))) := by
  constructor
  · intro ht hd
    have hst2 : @LE.le Nat _ s t := hst
    have hsv : Clock.valid s := by
      simp only [Clock.valid, maxInt64] at ht ⊢
      omega
    have httl2 : (0 : Int) < ttl := httl
    have hstore : ((MemoryCache.asCache V).run (m.Set s k v ttl).2 ops).2.store k
        = some ⟨v, wrapInt64 (s + ttl)⟩ := by
      rw [MemoryCache.run_store_of_not_touches ops _ k hops, MemoryCache.Set_store_self,
        if_pos httl]
    rw [MemoryCache.Get_of_Set_entry _ k v ttl s t hstore httl hd hsv ht]
    constructor
    · intro h
      rw [if_neg (by omega)]
    · intro h
      rw [if_pos h]
  · have hstore : ((InMemoryCache.asCache V).run (c.Set s k v ttl).2 ops).2.store k
        = some ⟨v, (Now s).Add ttl⟩ := by
      rw [InMemoryCache.run_store_of_not_touches_sync ops _ k hops, InMemoryCache.Set_store_self_sync,
        if_pos httl]
    have httl2 : (0 : Int) < ttl := httl
    rw [InMemoryCache.Get_of_Set_entry_sync _ k v ttl s t hstore httl]
    constructor
    · intro h
      rw [if_pos h]
    · intro h
      rw [if_neg (by omega)]

/-- Witness for C1, the scenario `Set("u:1", (1, "a"), 5m)`: a `Get` one second
before the five minutes are over finds the value, a `Get` after five minutes and
one second does not, in both stores. -/
theorem C1_get_after_set_with_ttl_witness :
    ((((MemoryCache.asCache (Nat × String)).run
        (NewMemoryCache.Set 1700000000000000000 "u:1" (some (1, "a")) 300000000000).2
        [(1700000000000000001, Op.get "u:2")]).2.Get 1700000299000000000 "u:1").1
      = (some (1, "a"), true)) ∧
    ((((InMemoryCache.asCache (Nat × String)).run
        (NewInMemoryCache.Set 1700000000000000000 "u:1" (some (1, "a")) 300000000000).2
        [(1700000000000000001, Op.get "u:2")]).2.Get 1700000301000000000 "u:1").1
      = (none, false)) :=
  ⟨((C1_get_after_set_with_ttl "u:1" (some (1, "a")) 300000000000 1700000000000000000
      1700000299000000000 NewMemoryCache NewInMemoryCache
      [(1700000000000000001, Op.get "u:2")] (by decide) (by decide) (by decide)).1
      (by decide) (by decide)).1 (by decide),
   (C1_get_after_set_with_ttl "u:1" (some (1, "a")) 300000000000 1700000000000000000
      1700000301000000000 NewMemoryCache NewInMemoryCache
      [(1700000000000000001, Op.get "u:2")] (by decide) (by decide) (by decide)).2.2
      (by decide)⟩

/-- Claim C2: in `MemoryCache` and in `InMemoryCache`, after `Set(k, v, ttl)` with
`ttl ≤ 0`, followed by any calls other than `Delete(k)`, `Clear` and `Set(k, ...)`,
`Get(k)` returns `(v, true)` at every clock reading. -/
theorem C2_get_after_set_without_ttl {V : Type} (k : String) (v : Interface V)
    (ttl : Duration) (s t : Clock) (m : MemoryCache V) (c : InMemoryCache V)
    (ops : List (Clock × Op V)) (httl : ttl ≤ 0) (hops : ∀ o ∈ ops, o.2.writes k = false) :
    (((MemoryCache.asCache V).run (m.Set s k v ttl).2 ops).2.Get t k).1 = (v, true) ∧
    (((InMemoryCache.asCache V).run (c.Set s k v ttl).2 ops).2.Get t k).1 = (v, true) := by
  have hn : ¬ (ttl > 0) := not_lt.mpr httl
  constructor
  · have hstore : ((MemoryCache.asCache V).run (m.Set s k v ttl).2 ops).2.store k
        = some ⟨v, 0⟩ := by
      rw [MemoryCache.run_store_of_not_writes ops _ k hops, MemoryCache.Set_store_self,
        if_neg hn]
    rw [MemoryCache.Get_present _ t k _ hstore, if_neg (fun h => lt_irrefl _ h.1)]
  · have hstore : ((InMemoryCache.asCache V).run (c.Set s k v ttl).2 ops).2.store k
        = some ⟨v, Time.zero⟩ :=
      InMemoryCache.run_store_of_not_writes_sync ops _ k ⟨v, Time.zero⟩ hops
        (by rw [InMemoryCache.Set_store_self_sync, if_neg hn]) rfl
    rw [InMemoryCache.Get_present_sync _ t k _ hstore]
    simp [Time.zero]

/-- Witness for C2: an entry set with `ttl = 0` is still found a long time later,
after reads of the same key and writes of another key. -/
theorem C2_get_after_set_without_ttl_witness :
    (((MemoryCache.asCache Nat).run (NewMemoryCache.Set 10 "k" (some 7) 0).2
        [(20, Op.get "k"), (30, Op.set "j" (some 1) 5), (40, Op.delete "j")]).2.Get
        9000000000000000000 "k").1 = (some 7, true) ∧
    (((InMemoryCache.asCache Nat).run (NewInMemoryCache.Set 10 "k" (some 7) 0).2
        [(20, Op.get "k"), (30, Op.set "j" (some 1) 5), (40, Op.delete "j")]).2.Get
        9000000000000000000 "k").1 = (some 7, true) :=
  C2_get_after_set_without_ttl "k" (some 7) 0 10 9000000000000000000 NewMemoryCache
    NewInMemoryCache [(20, Op.get "k"), (30, Op.set "j" (some 1) 5), (40, Op.delete "j")]
    (by decide) (by decide)

/-- Claim C7: in `MemoryCache` and in `InMemoryCache`, from every state of the
table, `Get(k)` right after `Delete(k)` returns `(nil, false)` at every clock
reading. -/
theorem C7_get_after_delete {V : Type} (m : MemoryCache V) (c : InMemoryCache V)
    (k : String) (t : Clock) :
    ((m.Delete k).2.Get t k).1 = (none, false) ∧
    ((c.Delete k).2.Get t k).1 = (none, false) := by
  constructor
  · exact MemoryCache.Get_absent _ t k (by simp [MemoryCache.Delete])
  · rw [InMemoryCache.Get_absent_sync _ t k (by simp [InMemoryCache.Delete])]

/-- Claim C8: in `MemoryCache` and in `InMemoryCache`, from every state of the
table, `Clear` returns no error and leaves the table of a freshly constructed
store; afterwards `Get` of every key returns `(nil, false)` at every clock reading,
every later sequence of calls runs as on a fresh store, and a later `Set` is found
again. -/
theorem C8_get_after_clear {V : Type} (m : MemoryCache V) (c : InMemoryCache V)
    (k : String) (v : Interface V) (s t : Clock) (ops : List (Clock × Op V)) :
    (m.Clear = (none, NewMemoryCache) ∧
      (m.Clear.2.Get t k).1 = (none, false) ∧
      (MemoryCache.asCache V).run m.Clear.2 ops = (MemoryCache.asCache V).run NewMemoryCache ops ∧
      ((m.Clear.2.Set s k v 0).2.Get t k).1 = (v, true)) ∧
    (c.Clear = (none, NewInMemoryCache) ∧
      (c.Clear.2.Get t k).1 = (none, false) ∧
      (InMemoryCache.asCache V).run c.Clear.2 ops
        = (InMemoryCache.asCache V).run NewInMemoryCache ops ∧
      ((c.Clear.2.Set s k v 0).2.Get t k).1 = (v, true)) := by
  refine ⟨⟨rfl, ?_, rfl, ?_⟩, ⟨rfl, ?_, rfl, ?_⟩⟩
  · exact MemoryCache.Get_absent _ t k rfl
  · rw [MemoryCache.Get_present _ t k _ (MemoryCache.Set_store_self _ k v 0 s)]
    simp
  · rw [InMemoryCache.Get_absent_sync _ t k rfl]
  · rw [InMemoryCache.Get_present_sync _ t k _ (InMemoryCache.Set_store_self_sync _ k v 0 s)]
    simp [Time.zero]

/-- Claim C9: in `MemoryCache` and in `InMemoryCache`, `Set(k, v1, ttl1)` followed
by `Set(k, v2, ttl2)` leaves the same table as `Set(k, v2, ttl2)` alone at that
second clock reading, so every later sequence of calls returns the same values and
ends in the same state; when `ttl2 ≤ 0` the entry is found at every clock reading. -/
theorem C9_set_replaces_entry {V : Type} (m : MemoryCache V) (c : InMemoryCache V)
    (k : String) (v1 v2 : Interface V) (ttl1 ttl2 : Duration) (s1 s2 : Clock) :
    ((m.Set s1 k v1 ttl1).2.Set s2 k v2 ttl2 = m.Set s2 k v2 ttl2 ∧
      (∀ ops : List (Clock × Op V),
        (MemoryCache.asCache V).run ((m.Set s1 k v1 ttl1).2.Set s2 k v2 ttl2).2 ops
          = (MemoryCache.asCache V).run (m.Set s2 k v2 ttl2).2 ops) ∧
      (ttl2 ≤ 0 → ∀ t : Clock,
        (((m.Set s1 k v1 ttl1).2.Set s2 k v2 ttl2).2.Get t k).1 = (v2, true))) ∧
    ((c.Set s1 k v1 ttl1).2.Set s2 k v2 ttl2 = c.Set s2 k v2 ttl2 ∧
      (∀ ops : List (Clock × Op V),
        (InMemoryCache.asCache V).run ((c.Set s1 k v1 ttl1).2.Set s2 k v2 ttl2).2 ops
          = (InMemoryCache.asCache V).run (c.Set s2 k v2 ttl2).2 ops) ∧
      (ttl2 ≤ 0 → ∀ t : Clock,
        (((c.Set s1 k v1 ttl1).2.Set s2 k v2 ttl2).2.Get t k).1 = (v2, true))) := by
  have hm : (m.Set s1 k v1 ttl1).2.Set s2 k v2 ttl2 = m.Set s2 k v2 ttl2 := by
    simp [MemoryCache.Set]
  have hc : (c.Set s1 k v1 ttl1).2.Set s2 k v2 ttl2 = c.Set s2 k v2 ttl2 := by
    simp [InMemoryCache.Set]
  refine ⟨⟨hm, fun ops => by rw [hm], ?_⟩, ⟨hc, fun ops => by rw [hc], ?_⟩⟩
  · intro httl t
    rw [MemoryCache.Get_present _ t k _ (MemoryCache.Set_store_self _ k v2 ttl2 s2),
      if_neg (not_lt.mpr httl)]
    simp
  · intro httl t
    rw [InMemoryCache.Get_present_sync _ t k _ (InMemoryCache.Set_store_self_sync _ k v2 ttl2 s2),
      if_neg (not_lt.mpr httl)]
    simp [Time.zero]

/-- Witness for C9: a `Set` with `ttl = 0` over an entry with a one nanosecond `ttl`
is found at a much later clock reading, in both stores. -/
theorem C9_set_replaces_entry_witness :
    (((NewMemoryCache.Set 5 "k" (some 1) 1).2.Set 6 "k" (some 2) 0).2.Get 1000000 "k").1
      = (some 2, true) ∧
    (((NewInMemoryCache.Set 5 "k" (some 1) 1).2.Set 6 "k" (some 2) 0).2.Get 1000000 "k").1
      = (some 2, true) :=
  ⟨(C9_set_replaces_entry NewMemoryCache NewInMemoryCache "k" (some 1) (some 2) 1 0 5 6).1.2.2
      (by decide) 1000000,
   (C9_set_replaces_entry NewMemoryCache NewInMemoryCache "k" (some 1) (some 2) 1 0 5 6).2.2.2
      (by decide) 1000000⟩

/-- Claim C10: run any finite sequence of `Get`/`Set`/`Delete`/`Clear` calls with
non-decreasing clock readings on a freshly constructed `MemoryCache` or
`InMemoryCache`. Whenever the call at position `i` is a `Get(k)` at clock reading `t`
that returns `(v, true)`, the most recent earlier call among `Set(k, ...)`,
`Delete(k)` and `Clear` is a `Set(k, v, ttl)`, made at a reading `s ≤ t`, with
`ttl ≤ 0` or `t ≤ s + ttl`. For `MemoryCache`, `t` is in the `int64` range and
every `ttl` of the sequence is an `int64`. -/
theorem C10_found_entry_is_last_write_unexpired {V : Type} (ops : List (Clock × Op V))
    (i : Nat) (k : String) (t : Clock) (v : Interface V)
    (hsorted : clockNonDecreasing ops)
    (hop : ops[i]? = some (t, Op.get k)) :
    (Clock.valid t → (∀ o ∈ ops, o.2.ttlValid) →
      ((MemoryCache.asCache V).run NewMemoryCache ops).1[i]? = some (Ret.got v true) →
      ∃ s ttl, lastWrite k (ops.take i) = some (s, Op.set k v ttl) ∧ s ≤ t ∧
        (ttl ≤ 0 ∨ (t : Int) ≤ s + ttl)) ∧
    (((InMemoryCache.asCache V).run NewInMemoryCache ops).1[i]? = some (Ret.got v true) →
      ∃ s ttl, lastWrite k (ops.take i) = some (s, Op.set k v ttl) ∧ s ≤ t ∧
        (ttl ≤ 0 ∨ (t : Int) ≤ s + ttl)) := by
  constructor
  · intro hvt hvalid hres
    rw [Cache.run_getElem?, hop] at hres
    simp only [Option.map_some', Option.some.injEq, Cache.step, MemoryCache.asCache,
      Ret.got.injEq] at hres
    obtain ⟨hval, hfound⟩ := hres
    cases hs : ((MemoryCache.asCache V).run NewMemoryCache (ops.take i)).2.store k with
    | none =>
      have hg := MemoryCache.Get_absent _ t k hs
      simp only [MemoryCache.asCache] at hg
      rw [hg] at hfound
      simp at hfound
    | some itm =>
      rcases MemoryCache.run_store_lastWrite _ _ k itm hs with ⟨_, hst⟩ | ⟨s, v2, ttl, hl, hi⟩
      · simp [NewMemoryCache] at hst
      · have hmem := lastWrite_mem k _ _ hl
        have hst : s ≤ t := clock_le_of_mem_take ops i _ _ hsorted hop hmem
        have hst2 : @LE.le Nat _ s t := hst
        have hvd : Duration.valid ttl := hvalid _ (List.mem_of_mem_take hmem)
        have hvs : Clock.valid s := by
          simp only [Clock.valid, maxInt64] at hvt ⊢
          omega
        subst hi
        by_cases httl : ttl > 0
        · rw [if_pos httl] at hs
          have hg := MemoryCache.Get_of_Set_entry _ k v2 ttl s t hs httl hvd hvs hvt
          simp only [MemoryCache.asCache] at hg
          by_cases hlt : (s : Int) + ttl < t
          · rw [if_pos hlt] at hg
            rw [hg] at hfound
            simp at hfound
          · rw [if_neg hlt] at hg
            rw [hg] at hval
            simp only at hval
            subst hval
            exact ⟨s, ttl, hl, hst, Or.inr (by omega)⟩
        · rw [if_neg httl] at hs
          have hg := MemoryCache.Get_present _ t k _ hs
          simp only [MemoryCache.asCache] at hg
          rw [if_neg (fun h => lt_irrefl _ h.1)] at hg
          rw [hg] at hval
          simp only at hval
          subst hval
          exact ⟨s, ttl, hl, hst, Or.inl (not_lt.mp httl)⟩
  · intro hres
    rw [Cache.run_getElem?, hop] at hres
    simp only [Option.map_some', Option.some.injEq, Cache.step, InMemoryCache.asCache,
      Ret.got.injEq] at hres
    obtain ⟨hval, hfound⟩ := hres
    cases hs : ((InMemoryCache.asCache V).run NewInMemoryCache (ops.take i)).2.store k with
    | none =>
      have hg := InMemoryCache.Get_absent_sync _ t k hs
      simp only [InMemoryCache.asCache] at hg
      rw [hg] at hfound
      simp at hfound
    | some e =>
      rcases InMemoryCache.run_store_lastWrite_sync _ _ k e hs with ⟨_, hst⟩ | ⟨s, v2, ttl, hl, hi⟩
      · simp [NewInMemoryCache] at hst
      · have hmem := lastWrite_mem k _ _ hl
        have hst : s ≤ t := clock_le_of_mem_take ops i _ _ hsorted hop hmem
        subst hi
        by_cases httl : ttl > 0
        · rw [if_pos httl] at hs
          have hg := InMemoryCache.Get_of_Set_entry_sync _ k v2 ttl s t hs httl
          simp only [InMemoryCache.asCache] at hg
          by_cases hlt : (t : Int) < s + ttl
          · rw [if_pos hlt] at hg
            rw [hg] at hval
            simp only at hval
            subst hval
            exact ⟨s, ttl, hl, hst, Or.inr (le_of_lt hlt)⟩
          · rw [if_neg hlt] at hg
            rw [hg] at hfound
            simp at hfound
        · rw [if_neg httl] at hs
          have hg := InMemoryCache.Get_present_sync _ t k _ hs
          simp only [InMemoryCache.asCache, Time.zero, true_or, if_true] at hg
          rw [hg] at hval
          simp only at hval
          subst hval
          exact ⟨s, ttl, hl, hst, Or.inl (not_lt.mp httl)⟩

/-- Witness for C10: `Set("k", 1, 10 ns)` at reading 5, a `Clear`, `Set("k", 2, 10 ns)`
at reading 7, then `Get("k")` at reading 9 returns `(2, true)`, and the most recent
write of `"k"` before it is the second `Set`. -/
theorem C10_found_entry_is_last_write_unexpired_witness :
    (∃ s ttl, lastWrite "k" (List.take 3
        [(5, Op.set "k" (some 1) 10), (6, Op.clear), (7, Op.set "k" (some 2) 10),
          (9, Op.get "k")]) = some (s, Op.set "k" (some 2) ttl) ∧ s ≤ 9 ∧
        (ttl ≤ 0 ∨ ((9 : Clock) : Int) ≤ s + ttl)) ∧
    (∃ s ttl, lastWrite "k" (List.take 3
        [(5, Op.set "k" (some 1) 10), (6, Op.clear), (7, Op.set "k" (some 2) 10),
          (9, Op.get "k")]) = some (s, Op.set "k" (some 2) ttl) ∧ s ≤ 9 ∧
        (ttl ≤ 0 ∨ ((9 : Clock) : Int) ≤ s + ttl)) :=
  ⟨(C10_found_entry_is_last_write_unexpired
      [(5, Op.set "k" (some 1) 10), (6, Op.clear), (7, Op.set "k" (some 2) 10),
        (9, Op.get "k")] 3 "k" 9 (some 2) (by decide) rfl).1 (by decide) (by decide) rfl,
   (C10_found_entry_is_last_write_unexpired
      [(5, Op.set "k" (some 1) 10), (6, Op.clear), (7, Op.set "k" (some 2) 10),
        (9, Op.get "k")] 3 "k" 9 (some 2) (by decide) rfl).2 rfl⟩

/-! ## Claims about the decorators -/

/-- Claim C3: `CacheDecorator.Cacheable` over a freshly constructed `MemoryCache`
or `InMemoryCache`, with a producer that succeeds with `r`. The first call runs the
producer exactly once (its invocation counter goes from `n` to `n + 1`), returns
`(r, nil)`, adds one to the miss counter and leaves the hit counter. A second call
with the same key whose lookup happens before the entry expires (`ttl ≤ 0`, or at a
clock reading before the reading of the first call's `Set` plus `ttl`) does not run
the producer, returns `(r, nil)`, adds one to the hit counter and leaves the miss
counter. For `MemoryCache` the clock readings and `ttl` are in the `int64` range. -/
theorem C3_cacheable_miss_then_hit {V P : Type} (key : String) (ttl : Duration)
    (fn : Producer P (Interface V)) (p : P) (n : Nat) (r : Interface V) (m0 : CacheMetrics)
    (tGet tSet tGet2 tSet2 : Clock)
    (hfn : (fn p).1 = (r, none))
    (hlive : ttl ≤ 0 ∨ (tGet2 : Int) < tSet + ttl) :
    (Clock.valid tSet → Clock.valid tGet2 → Duration.valid ttl →
      let first := CacheDecorator.Cacheable (MemoryCache.asCache V) ⟨NewMemoryCache, m0⟩
        tGet tSet key ttl fn.counted (p, n)
      let second := CacheDecorator.Cacheable (MemoryCache.asCache V) first.2.1
        tGet2 tSet2 key ttl fn.counted first.2.2
      first.1 = (r, none) ∧ first.2.2 = ((fn p).2, n + 1) ∧
      first.2.1.metrics.misses = m0.misses + 1 ∧ first.2.1.metrics.hits = m0.hits ∧
      second.1 = (r, none) ∧ second.2.2 = ((fn p).2, n + 1) ∧
      second.2.1.metrics.hits = first.2.1.metrics.hits + 1 ∧
      second.2.1.metrics.misses = first.2.1.metrics.misses) ∧
    (let first := CacheDecorator.Cacheable (InMemoryCache.asCache V) ⟨NewInMemoryCache, m0⟩
        tGet tSet key ttl fn.counted (p, n)
      let second := CacheDecorator.Cacheable (InMemoryCache.asCache V) first.2.1
        tGet2 tSet2 key ttl fn.counted first.2.2
      first.1 = (r, none) ∧ first.2.2 = ((fn p).2, n + 1) ∧
      first.2.1.metrics.misses = m0.misses + 1 ∧ first.2.1.metrics.hits = m0.hits ∧
      second.1 = (r, none) ∧ second.2.2 = ((fn p).2, n + 1) ∧
      second.2.1.metrics.hits = first.2.1.metrics.hits + 1 ∧
      second.2.1.metrics.misses = first.2.1.metrics.misses) := by
  have hcnt : (fn.counted (p, n)).1 = (r, none) := by
    rw [Producer.counted_apply]; exact hfn
  constructor
  · intro hvs hvt hvd
    have hmiss : ((MemoryCache.asCache V).Get NewMemoryCache tGet key).1.2 = false := rfl
    have hfirst := CacheDecorator.Cacheable_miss_ok (MemoryCache.asCache V)
      ⟨NewMemoryCache, m0⟩ tGet tSet key ttl fn.counted (p, n) r hmiss hcnt
    have hfound : ((NewMemoryCache.Set tSet key r ttl).2.Get tGet2 key).1 = (r, true) := by
      by_cases httl : ttl > 0
      · have hlt : (tGet2 : Int) < tSet + ttl := by
          rcases hlive with h | h
          · exact absurd httl (not_lt.mpr h)
          · exact h
        have hstore : (NewMemoryCache.Set tSet key r ttl).2.store key
            = some ⟨r, wrapInt64 (tSet + ttl)⟩ := by
          rw [MemoryCache.Set_store_self, if_pos httl]
        rw [MemoryCache.Get_of_Set_entry _ key r ttl tSet tGet2 hstore httl hvd hvs hvt,
          if_neg (by omega)]
      · have hstore : (NewMemoryCache.Set tSet key r ttl).2.store key = some ⟨r, 0⟩ := by
          rw [MemoryCache.Set_store_self, if_neg httl]
        rw [MemoryCache.Get_present _ tGet2 key _ hstore, if_neg (fun h => lt_irrefl _ h.1)]
    intro first second
    have hf : first = ((r, none), ⟨(NewMemoryCache.Set tSet key r ttl).2, m0.RecordMiss⟩,
        ((fn p).2, n + 1)) := hfirst
    have hs : second = ((r, none), ⟨(NewMemoryCache.Set tSet key r ttl).2,
        m0.RecordMiss.RecordHit⟩, ((fn p).2, n + 1)) := by
      show CacheDecorator.Cacheable (MemoryCache.asCache V) first.2.1
        tGet2 tSet2 key ttl fn.counted first.2.2 = _
      rw [hf]
      exact CacheDecorator.Cacheable_hit (MemoryCache.asCache V) _ tGet2 tSet2 key ttl
        fn.counted _ r _
        (Prod.ext hfound (MemoryCache.Get_snd _ tGet2 key))
    rw [hs, hf]
    exact ⟨rfl, rfl, rfl, rfl, rfl, rfl, rfl, rfl⟩
  · have hmiss : ((InMemoryCache.asCache V).Get NewInMemoryCache tGet key).1.2 = false := rfl
    have hfirst := CacheDecorator.Cacheable_miss_ok (InMemoryCache.asCache V)
      ⟨NewInMemoryCache, m0⟩ tGet tSet key ttl fn.counted (p, n) r hmiss hcnt
    have hfound : (NewInMemoryCache.Set tSet key r ttl).2.Get tGet2 key
        = ((r, true), (NewInMemoryCache.Set tSet key r ttl).2) := by
      by_cases httl : ttl > 0
      · have hlt : (tGet2 : Int) < tSet + ttl := by
          rcases hlive with h | h
          · exact absurd httl (not_lt.mpr h)
          · exact h
        have hstore : (NewInMemoryCache.Set tSet key r ttl).2.store key
            = some ⟨r, (Now tSet).Add ttl⟩ := by
          rw [InMemoryCache.Set_store_self_sync, if_pos httl]
        rw [InMemoryCache.Get_present_sync _ tGet2 key _ hstore]
        have httl2 : (0 : Int) < ttl := httl
        rw [if_pos (Or.inr (by simp only [Now, Time.Add]; omega))]
      · have hstore : (NewInMemoryCache.Set tSet key r ttl).2.store key
            = some ⟨r, Time.zero⟩ := by
          rw [InMemoryCache.Set_store_self_sync, if_neg httl]
        rw [InMemoryCache.Get_present_sync _ tGet2 key _ hstore]
        simp [Time.zero]
    intro first second
    have hf : first = ((r, none), ⟨(NewInMemoryCache.Set tSet key r ttl).2, m0.RecordMiss⟩,
        ((fn p).2, n + 1)) := hfirst
    have hs : second = ((r, none), ⟨(NewInMemoryCache.Set tSet key r ttl).2,
        m0.RecordMiss.RecordHit⟩, ((fn p).2, n + 1)) := by
      show CacheDecorator.Cacheable (InMemoryCache.asCache V) first.2.1
        tGet2 tSet2 key ttl fn.counted first.2.2 = _
      rw [hf]
      exact CacheDecorator.Cacheable_hit (InMemoryCache.asCache V) _ tGet2 tSet2 key ttl
        fn.counted _ r _ hfound
    rw [hs, hf]
    exact ⟨rfl, rfl, rfl, rfl, rfl, rfl, rfl, rfl⟩

/-- Witness for C3: a producer returning `42`, key `"k"`, a `ttl` of 1000 ns, over a
fresh `MemoryCache` and a fresh `InMemoryCache` with all counters at zero. After the
two calls the producer has run once, and one miss and one hit are counted. -/
theorem C3_cacheable_miss_then_hit_witness :
    ((CacheDecorator.Cacheable (MemoryCache.asCache Nat)
        (CacheDecorator.Cacheable (MemoryCache.asCache Nat) ⟨NewMemoryCache, NewCacheMetrics⟩
          10 11 "k" 1000 (Producer.counted (fun _ : Unit => ((some 42, none), ()))) ((), 0)).2.1
        12 13 "k" 1000 (Producer.counted (fun _ : Unit => ((some 42, none), ())))
        (CacheDecorator.Cacheable (MemoryCache.asCache Nat) ⟨NewMemoryCache, NewCacheMetrics⟩
          10 11 "k" 1000 (Producer.counted (fun _ : Unit => ((some 42, none), ()))) ((), 0)).2.2).2.2
      = ((), 1)) ∧
    ((CacheDecorator.Cacheable (InMemoryCache.asCache Nat)
        (CacheDecorator.Cacheable (InMemoryCache.asCache Nat)
          ⟨NewInMemoryCache, NewCacheMetrics⟩
          10 11 "k" 1000 (Producer.counted (fun _ : Unit => ((some 42, none), ()))) ((), 0)).2.1
        12 13 "k" 1000 (Producer.counted (fun _ : Unit => ((some 42, none), ())))
        (CacheDecorator.Cacheable (InMemoryCache.asCache Nat)
          ⟨NewInMemoryCache, NewCacheMetrics⟩
          10 11 "k" 1000 (Producer.counted (fun _ : Unit => ((some 42, none), ()))) ((), 0)).2.2).1
      = (some 42, none)) :=
  ⟨((C3_cacheable_miss_then_hit "k" 1000 (fun _ : Unit => ((some 42, none), ())) () 0
      (some 42) NewCacheMetrics 10 11 12 13 rfl (Or.inr (by decide))).1
      (by decide) (by decide) (by decide)).2.2.2.2.2.1,
   (C3_cacheable_miss_then_hit "k" 1000 (fun _ : Unit => ((some 42, none), ())) () 0
      (some 42) NewCacheMetrics 10 11 12 13 rfl (Or.inr (by decide))).2.2.2.2.2.1⟩

/-- Claim C4: when the lookup finds no entry under the key and the producer returns
the error `e`, `CacheDecorator.Cacheable` returns `(nil, e)` and the generic
`Cacheable[T]` returns `(zero, e)`, over every `Cache` implementation; the store is
left in the state the lookup left it in (no `Set` runs), the producer has run once,
and only a miss is counted. Over `MemoryCache` (at every later clock reading in the
`int64` range) and over `InMemoryCache` (at every clock reading) a following `Get`
of that key returns `(nil, false)`. -/
theorem C4_producer_error_not_cached {V T P : Type} (key : String) (ttl : Duration)
    (tGet tSet t2 : Clock) (fn : Producer P (Interface V)) (p : P) (r : Interface V)
    (e : String) (ty : GoType V T) (keyGenerator : List (Interface V) → String)
    (fnT : List (Interface V) → Producer P T) (args : List (Interface V)) (rT : T)
    (out : List String)
    (hfn : (fn p).1 = (r, some e)) (hfnT : (fnT args p).1 = (rT, some e)) :
    (∀ (σ : Type) (impl : Cache σ V) (d : CacheDecorator σ),
      ((impl.Get d.cache tGet key).1.2 = false →
        d.Cacheable impl tGet tSet key ttl fn p
          = ((none, some e), ⟨(impl.Get d.cache tGet key).2, d.metrics.RecordMiss⟩, (fn p).2)) ∧
      ((impl.Get d.cache tGet (keyGenerator args)).1.2 = false →
        Cacheable ty impl keyGenerator ttl fnT args d.cache tGet tSet p out
          = ((ty.zero, some e), (impl.Get d.cache tGet (keyGenerator args)).2,
              (fnT args p).2, out))) ∧
    (∀ (d : CacheDecorator (MemoryCache V)), tGet ≤ t2 → Clock.valid t2 →
      ((d.cache.Get tGet key).1.2 = false →
        ((d.Cacheable (MemoryCache.asCache V) tGet tSet key ttl fn p).2.1.cache.Get t2 key).1
          = (none, false)) ∧
      ((d.cache.Get tGet (keyGenerator args)).1.2 = false →
        ((Cacheable ty (MemoryCache.asCache V) keyGenerator ttl fnT args d.cache tGet tSet
            p out).2.1.Get t2 (keyGenerator args)).1 = (none, false))) ∧
    (∀ (d : CacheDecorator (InMemoryCache V)),
      ((d.cache.Get tGet key).1.2 = false →
        ((d.Cacheable (InMemoryCache.asCache V) tGet tSet key ttl fn p).2.1.cache.Get t2 key).1
          = (none, false)) ∧
      ((d.cache.Get tGet (keyGenerator args)).1.2 = false →
        ((Cacheable ty (InMemoryCache.asCache V) keyGenerator ttl fnT args d.cache tGet tSet
            p out).2.1.Get t2 (keyGenerator args)).1 = (none, false))) := by
  refine ⟨fun σ impl d => ⟨fun hmiss => ?_, fun hmiss => ?_⟩,
    fun d h12 hv => ⟨fun hmiss => ?_, fun hmiss => ?_⟩,
    fun d => ⟨fun hmiss => ?_, fun hmiss => ?_⟩⟩
  · exact CacheDecorator.Cacheable_miss_err impl d tGet tSet key ttl fn p r e hmiss hfn
  · exact Cacheable_generic_miss_err ty impl keyGenerator ttl fnT args d.cache tGet tSet p out rT e
      hmiss hfnT
  · rw [CacheDecorator.Cacheable_miss_err (MemoryCache.asCache V) d tGet tSet key ttl fn p r e
      hmiss hfn]
    show ((d.cache.Get tGet key).2.Get t2 key).1 = (none, false)
    rw [MemoryCache.Get_snd]
    exact MemoryCache.Get_miss_later d.cache key tGet t2 h12 hv hmiss
  · rw [Cacheable_generic_miss_err ty (MemoryCache.asCache V) keyGenerator ttl fnT args d.cache tGet
      tSet p out rT e hmiss hfnT]
    show ((d.cache.Get tGet (keyGenerator args)).2.Get t2 (keyGenerator args)).1 = (none, false)
    rw [MemoryCache.Get_snd]
    exact MemoryCache.Get_miss_later d.cache _ tGet t2 h12 hv hmiss
  · rw [CacheDecorator.Cacheable_miss_err (InMemoryCache.asCache V) d tGet tSet key ttl fn p r
      e hmiss hfn]
    show ((d.cache.Get tGet key).2.Get t2 key).1 = (none, false)
    rw [InMemoryCache.Get_absent_sync _ t2 key (InMemoryCache.Get_miss_store d.cache key tGet hmiss)]
  · rw [Cacheable_generic_miss_err ty (InMemoryCache.asCache V) keyGenerator ttl fnT args d.cache tGet
      tSet p out rT e hmiss hfnT]
    show ((d.cache.Get tGet (keyGenerator args)).2.Get t2 (keyGenerator args)).1 = (none, false)
    rw [InMemoryCache.Get_absent_sync _ t2 _
      (InMemoryCache.Get_miss_store d.cache _ tGet hmiss)]

/-- Witness for C4: a producer failing with `"boom"` over a fresh `MemoryCache`, and
over an `InMemoryCache` whose entry under `"k"` has expired at the lookup. -/
theorem C4_producer_error_not_cached_witness :
    (CacheDecorator.Cacheable (MemoryCache.asCache Nat) ⟨NewMemoryCache, NewCacheMetrics⟩
        10 11 "k" 5 (fun _ : Unit => ((some 3, some "boom"), ())) ()
      = ((none, some "boom"),
          ⟨(NewMemoryCache.Get 10 "k").2, NewCacheMetrics.RecordMiss⟩, ())) ∧
    (((Cacheable (GoType.mk 0 some id) (InMemoryCache.asCache Nat) (fun _ => "k") 5
        (fun _ (_ : Unit) => ((7, some "boom"), ())) []
        (NewInMemoryCache.Set 0 "k" (some 1) 5).2 10 11 () []).2.1.Get 12 "k").1
      = (none, false)) :=
  ⟨((C4_producer_error_not_cached "k" 5 10 11 12 (fun _ : Unit => ((some 3, some "boom"), ()))
      () (some 3) "boom" (GoType.mk 0 some id) (fun _ => "k")
      (fun _ (_ : Unit) => ((7, some "boom"), ())) [] 7 [] rfl rfl).1
      (MemoryCache Nat) (MemoryCache.asCache Nat) ⟨NewMemoryCache, NewCacheMetrics⟩).1 rfl,
   ((C4_producer_error_not_cached "k" 5 10 11 12 (fun _ : Unit => ((some 3, some "boom"), ()))
      () (some 3) "boom" (GoType.mk 0 some id) (fun _ => "k")
      (fun _ (_ : Unit) => ((7, some "boom"), ())) [] 7 [] rfl rfl).2.2
      ⟨(NewInMemoryCache.Set 0 "k" (some 1) 5).2, NewCacheMetrics⟩).2 (by decide)⟩

/-- Claim C5: over every `Cache` implementation, when the producer succeeds with `r`
and the `Set` made by the call returns an error, `CacheDecorator.Cacheable` (after a
lookup that found nothing) and `CacheDecorator.CachePut` return `(r, nil)` and add
exactly one to the error counter; `Cacheable` also counts its miss, and no other
counter moves. -/
theorem C5_store_failure_is_counted_not_returned {σ V P : Type} (impl : Cache σ V)
    (d : CacheDecorator σ) (key : String) (ttl : Duration) (tGet tSet : Clock)
    (fn : Producer P (Interface V)) (p : P) (r : Interface V)
    (hfn : (fn p).1 = (r, none)) :
    ((impl.Get d.cache tGet key).1.2 = false →
      (impl.Set (impl.Get d.cache tGet key).2 tSet key r ttl).1 ≠ none →
      (d.Cacheable impl tGet tSet key ttl fn p).1 = (r, none) ∧
      (d.Cacheable impl tGet tSet key ttl fn p).2.1.metrics.errors = d.metrics.errors + 1 ∧
      (d.Cacheable impl tGet tSet key ttl fn p).2.1.metrics.misses = d.metrics.misses + 1 ∧
      (d.Cacheable impl tGet tSet key ttl fn p).2.1.metrics.hits = d.metrics.hits) ∧
    ((impl.Set d.cache tSet key r ttl).1 ≠ none →
      (d.CachePut impl tSet key ttl fn p).1 = (r, none) ∧
      (d.CachePut impl tSet key ttl fn p).2.1.metrics.errors = d.metrics.errors + 1 ∧
      (d.CachePut impl tSet key ttl fn p).2.1.metrics.misses = d.metrics.misses ∧
      (d.CachePut impl tSet key ttl fn p).2.1.metrics.hits = d.metrics.hits) := by
  constructor
  · intro hmiss hset
    rw [CacheDecorator.Cacheable_miss_ok impl d tGet tSet key ttl fn p r hmiss hfn]
    rw [if_neg hset]
    exact ⟨rfl, rfl, rfl, rfl⟩
  · intro hset
    rw [CacheDecorator.CachePut_ok impl d tSet key ttl fn p r hfn]
    rw [if_neg hset]
    exact ⟨rfl, rfl, rfl, rfl⟩

/-- Witness for C5: a `Cache` whose `Get` finds nothing and whose `Set` always fails
with `"unreachable"`; `CachePut` still returns the produced `42` and counts one
error. -/
theorem C5_store_failure_is_counted_not_returned_witness :
    (CacheDecorator.CachePut
        (Cache.mk (fun c _ _ => ((none, false), c)) (fun c _ _ _ _ => (some "unreachable", c))
          (fun c _ _ => (none, c)) (fun c _ => (none, c)))
        (CacheDecorator.mk () NewCacheMetrics) 11 "k" 5
        (fun _ : Unit => ((some 42, none), ())) ()).1 = (some 42, none) ∧
    (CacheDecorator.CachePut
        (Cache.mk (fun c _ _ => ((none, false), c)) (fun c _ _ _ _ => (some "unreachable", c))
          (fun c _ _ => (none, c)) (fun c _ => (none, c)))
        (CacheDecorator.mk () NewCacheMetrics) 11 "k" 5
        (fun _ : Unit => ((some 42, none), ())) ()).2.1.metrics.errors = 0 + 1 :=
  ⟨((C5_store_failure_is_counted_not_returned
      (Cache.mk (fun c _ _ => ((none, false), c)) (fun c _ _ _ _ => (some "unreachable", c))
        (fun c _ _ => (none, c)) (fun c _ => (none, c)))
      (CacheDecorator.mk () NewCacheMetrics) "k" 5 10 11
      (fun _ : Unit => ((some 42, none), ())) () (some 42) rfl).2 (by decide)).1,
   ((C5_store_failure_is_counted_not_returned
      (Cache.mk (fun c _ _ => ((none, false), c)) (fun c _ _ _ _ => (some "unreachable", c))
        (fun c _ _ => (none, c)) (fun c _ => (none, c)))
      (CacheDecorator.mk () NewCacheMetrics) "k" 5 10 11
      (fun _ : Unit => ((some 42, none), ())) () (some 42) rfl).2 (by decide)).2.1⟩

/-- Claim C6: `CacheDecorator.CachePut` over a `MemoryCache` or an `InMemoryCache` in
any state, with a producer that succeeds with `r`: the producer runs exactly once
(its invocation counter goes from `n` to `n + 1`), `(r, nil)` is returned, and a
following `Get` of the key before expiry (`ttl ≤ 0`, or at a clock reading before
the reading of the `Set` plus `ttl`) returns `(r, true)`. For `MemoryCache` the
clock readings and `ttl` are in the `int64` range. -/
theorem C6_cacheput_refreshes_entry {V P : Type} (m : MemoryCache V) (c : InMemoryCache V)
    (m0 : CacheMetrics) (key : String) (ttl : Duration) (tSet t : Clock)
    (fn : Producer P (Interface V)) (p : P) (n : Nat) (r : Interface V)
    (hfn : (fn p).1 = (r, none))
    (hlive : ttl ≤ 0 ∨ (t : Int) < tSet + ttl) :
    (Clock.valid tSet → Clock.valid t → Duration.valid ttl →
      (CacheDecorator.CachePut (MemoryCache.asCache V) ⟨m, m0⟩ tSet key ttl
        fn.counted (p, n)).1 = (r, none) ∧
      (CacheDecorator.CachePut (MemoryCache.asCache V) ⟨m, m0⟩ tSet key ttl
        fn.counted (p, n)).2.2 = ((fn p).2, n + 1) ∧
      ((CacheDecorator.CachePut (MemoryCache.asCache V) ⟨m, m0⟩ tSet key ttl
        fn.counted (p, n)).2.1.cache.Get t key).1 = (r, true)) ∧
    ((CacheDecorator.CachePut (InMemoryCache.asCache V) ⟨c, m0⟩ tSet key ttl
        fn.counted (p, n)).1 = (r, none) ∧
      (CacheDecorator.CachePut (InMemoryCache.asCache V) ⟨c, m0⟩ tSet key ttl
        fn.counted (p, n)).2.2 = ((fn p).2, n + 1) ∧
      ((CacheDecorator.CachePut (InMemoryCache.asCache V) ⟨c, m0⟩ tSet key ttl
        fn.counted (p, n)).2.1.cache.Get t key).1 = (r, true)) := by
  have hcnt : (fn.counted (p, n)).1 = (r, none) := by
    rw [Producer.counted_apply]; exact hfn
  constructor
  · intro hvs hvt hvd
    rw [CacheDecorator.CachePut_ok (MemoryCache.asCache V) ⟨m, m0⟩ tSet key ttl
      fn.counted (p, n) r hcnt]
    refine ⟨rfl, rfl, ?_⟩
    show ((m.Set tSet key r ttl).2.Get t key).1 = (r, true)
    by_cases httl : ttl > 0
    · have hlt : (t : Int) < tSet + ttl := by
        rcases hlive with h | h
        · exact absurd httl (not_lt.mpr h)
        · exact h
      have hstore : (m.Set tSet key r ttl).2.store key
          = some ⟨r, wrapInt64 (tSet + ttl)⟩ := by
        rw [MemoryCache.Set_store_self, if_pos httl]
      rw [MemoryCache.Get_of_Set_entry _ key r ttl tSet t hstore httl hvd hvs hvt,
        if_neg (by omega)]
    · have hstore : (m.Set tSet key r ttl).2.store key = some ⟨r, 0⟩ := by
        rw [MemoryCache.Set_store_self, if_neg httl]
      rw [MemoryCache.Get_present _ t key _ hstore, if_neg (fun h => lt_irrefl _ h.1)]
  · rw [CacheDecorator.CachePut_ok (InMemoryCache.asCache V) ⟨c, m0⟩ tSet key ttl
      fn.counted (p, n) r hcnt]
    refine ⟨rfl, rfl, ?_⟩
    show ((c.Set tSet key r ttl).2.Get t key).1 = (r, true)
    by_cases httl : ttl > 0
    · have hlt : (t : Int) < tSet + ttl := by
        rcases hlive with h | h
        · exact absurd httl (not_lt.mpr h)
        · exact h
      have hstore : (c.Set tSet key r ttl).2.store key = some ⟨r, (Now tSet).Add ttl⟩ := by
        rw [InMemoryCache.Set_store_self_sync, if_pos httl]
      rw [InMemoryCache.Get_of_Set_entry_sync _ key r ttl tSet t hstore httl, if_pos hlt]
    · have hstore : (c.Set tSet key r ttl).2.store key = some ⟨r, Time.zero⟩ := by
        rw [InMemoryCache.Set_store_self_sync, if_neg httl]
      rw [InMemoryCache.Get_present_sync _ t key _ hstore]
      simp [Time.zero]

/-- Witness for C6: the store holds a live `1` under `"k"`; `CachePut` with a
producer returning `2` runs the producer once and the following `Get` returns `2`. -/
theorem C6_cacheput_refreshes_entry_witness :
    ((CacheDecorator.CachePut (MemoryCache.asCache Nat)
        ⟨(NewMemoryCache.Set 5 "k" (some 1) 0).2, NewCacheMetrics⟩ 11 "k" 100
        (Producer.counted (fun _ : Unit => ((some 2, none), ()))) ((), 0)).2.1.cache.Get
        50 "k").1 = (some 2, true) ∧
    (CacheDecorator.CachePut (InMemoryCache.asCache Nat)
        ⟨(NewInMemoryCache.Set 5 "k" (some 1) 0).2, NewCacheMetrics⟩ 11 "k" 100
        (Producer.counted (fun _ : Unit => ((some 2, none), ()))) ((), 0)).2.2 = ((), 1) :=
  ⟨((C6_cacheput_refreshes_entry (NewMemoryCache.Set 5 "k" (some 1) 0).2
      (NewInMemoryCache.Set 5 "k" (some 1) 0).2 NewCacheMetrics "k" 100 11 50
      (fun _ : Unit => ((some 2, none), ())) () 0 (some 2) rfl (Or.inr (by decide))).1
      (by decide) (by decide) (by decide)).2.2,
   (C6_cacheput_refreshes_entry (NewMemoryCache.Set 5 "k" (some 1) 0).2
      (NewInMemoryCache.Set 5 "k" (some 1) 0).2 NewCacheMetrics "k" 100 11 50
      (fun _ : Unit => ((some 2, none), ())) () 0 (some 2) rfl (Or.inr (by decide))).2.2.1⟩

/-! ## Further claims about the local stores -/

/-- Claim C11: run any finite sequence of `Get`/`Set`/`Delete`/`Clear` calls on a
freshly constructed `MemoryCache` or `InMemoryCache`. For every key `k` that is not
the key of any `Set` of the sequence, `Get(k)` afterwards returns `(nil, false)`, at
every clock reading. -/
theorem C11_never_set_key_not_found {V : Type} (ops : List (Clock × Op V)) (k : String)
    (t : Clock) (h : ∀ o ∈ ops, o.2.isSetOf k = false) :
    (((MemoryCache.asCache V).run NewMemoryCache ops).2.Get t k).1 = (none, false) ∧
    (((InMemoryCache.asCache V).run NewInMemoryCache ops).2.Get t k).1 = (none, false) := by
  constructor
  · cases hs : ((MemoryCache.asCache V).run NewMemoryCache ops).2.store k with
    | none => exact MemoryCache.Get_absent _ t k hs
    | some itm =>
      rcases MemoryCache.run_store_lastWrite _ _ k itm hs with ⟨_, hst⟩ | ⟨s, v, ttl, hl, _⟩
      · simp [NewMemoryCache] at hst
      · have hmem := h _ (lastWrite_mem k _ _ hl)
        simp [Op.isSetOf] at hmem
  · cases hs : ((InMemoryCache.asCache V).run NewInMemoryCache ops).2.store k with
    | none => rw [InMemoryCache.Get_absent_sync _ t k hs]
    | some e =>
      rcases InMemoryCache.run_store_lastWrite_sync _ _ k e hs with
        ⟨_, hst⟩ | ⟨s, v, ttl, hl, _⟩
      · simp [NewInMemoryCache] at hst
      · have hmem := h _ (lastWrite_mem k _ _ hl)
        simp [Op.isSetOf] at hmem

/-- Witness for C11: after sets, reads, a delete and a clear that never set `"z"`,
`Get("z")` finds nothing in either store. -/
theorem C11_never_set_key_not_found_witness :
    (((MemoryCache.asCache Nat).run NewMemoryCache
        [(1, Op.set "a" (some 1) 0), (2, Op.get "z"), (3, Op.delete "z"), (4, Op.clear),
          (5, Op.set "b" (some 2) 10)]).2.Get 6 "z").1 = (none, false) ∧
    (((InMemoryCache.asCache Nat).run NewInMemoryCache
        [(1, Op.set "a" (some 1) 0), (2, Op.get "z"), (3, Op.delete "z"), (4, Op.clear),
          (5, Op.set "b" (some 2) 10)]).2.Get 6 "z").1 = (none, false) :=
  C11_never_set_key_not_found
    [(1, Op.set "a" (some 1) 0), (2, Op.get "z"), (3, Op.delete "z"), (4, Op.clear),
      (5, Op.set "b" (some 2) 10)] "z" 6 (by decide)

/-- Claim C12, evaluated at `Set("k", 1, 10ns)` at clock reading 5 followed by
`Get("k")` at clock reading 15, the expiration instant: `MemoryCache` returns
`(1, true)`, `InMemoryCache` returns `(nil, false)`. The two stores are not
observationally identical there. -/
theorem C12_stores_differ_at_expiration_instant :
    ((MemoryCache.asCache Nat).run NewMemoryCache
        [(5, Op.set "k" (some 1) 10), (15, Op.get "k")]).1
      = [Ret.done none, Ret.got (some 1) true] ∧
    ((InMemoryCache.asCache Nat).run NewInMemoryCache
        [(5, Op.set "k" (some 1) 10), (15, Op.get "k")]).1
      = [Ret.done none, Ret.got none false] :=
  ⟨rfl, rfl⟩

/-- Claim C20: in `MemoryCache` and in `InMemoryCache`, from every state of the
table, `Delete(k)` returns no error; when the table holds no entry for `k` it leaves
the state as it was, so every later sequence of calls returns the same values; and
`Delete(k)` after `Delete(k)` leaves the state of a single `Delete(k)`. -/
theorem C20_delete_idempotent {V : Type} (m : MemoryCache V) (c : InMemoryCache V)
    (k : String) :
    ((m.Delete k).1 = none ∧
      (m.store k = none → (m.Delete k).2 = m ∧
        ∀ ops : List (Clock × Op V),
          (MemoryCache.asCache V).run (m.Delete k).2 ops = (MemoryCache.asCache V).run m ops) ∧
      (m.Delete k).2.Delete k = m.Delete k) ∧
    ((c.Delete k).1 = none ∧
      (c.store k = none → (c.Delete k).2 = c ∧
        ∀ ops : List (Clock × Op V),
          (InMemoryCache.asCache V).run (c.Delete k).2 ops
            = (InMemoryCache.asCache V).run c ops) ∧
      (c.Delete k).2.Delete k = c.Delete k) := by
  refine ⟨⟨rfl, fun hs => ?_, ?_⟩, ⟨rfl, fun hs => ?_, ?_⟩⟩
  · have he : (m.Delete k).2 = m := by
      cases m with
      | mk store =>
        simp only [MemoryCache.Delete, MemoryCache.mk.injEq]
        simp only at hs
        rw [← hs]
        exact Function.update_eq_self k store
    exact ⟨he, fun ops => by rw [he]⟩
  · simp [MemoryCache.Delete]
  · have he : (c.Delete k).2 = c := by
      cases c with
      | mk store =>
        simp only [InMemoryCache.Delete, InMemoryCache.mk.injEq]
        simp only at hs
        rw [← hs]
        exact Function.update_eq_self k store
    exact ⟨he, fun ops => by rw [he]⟩
  · simp [InMemoryCache.Delete]

/-- Witness for C20: deleting `"k"` from fresh stores, which hold no entry for it,
leaves them as they were. -/
theorem C20_delete_idempotent_witness :
    ((NewMemoryCache : MemoryCache Nat).Delete "k").2 = NewMemoryCache ∧
    ((NewInMemoryCache : InMemoryCache Nat).Delete "k").2 = NewInMemoryCache :=
  ⟨((C20_delete_idempotent NewMemoryCache NewInMemoryCache "k").1.2.1 rfl).1,
   ((C20_delete_idempotent NewMemoryCache NewInMemoryCache "k").2.2.1 rfl).1⟩

/-! ## Claims about eviction -/

/-- Claim C13: `CacheDecorator.CacheEvict` with `allEntries = false` over a
`MemoryCache` or an `InMemoryCache` in any state: afterwards `Get(key)` returns
`(nil, false)`, and for every other key `Get` returns what it returned before the
call, at every clock reading. -/
theorem C13_evict_one_removes_only_that_key {V P : Type} (m : MemoryCache V)
    (c : InMemoryCache V) (m0 : CacheMetrics) (key k2 : String) (now t : Clock)
    (fn : P → error × P) (p : P) (hne : k2 ≠ key) :
    ((((CacheDecorator.mk m m0).CacheEvict (MemoryCache.asCache V) now key false fn
          p).2.1.cache.Get t key).1 = (none, false) ∧
      (((CacheDecorator.mk m m0).CacheEvict (MemoryCache.asCache V) now key false fn
          p).2.1.cache.Get t k2).1 = (m.Get t k2).1) ∧
    ((((CacheDecorator.mk c m0).CacheEvict (InMemoryCache.asCache V) now key false fn
          p).2.1.cache.Get t key).1 = (none, false) ∧
      (((CacheDecorator.mk c m0).CacheEvict (InMemoryCache.asCache V) now key false fn
          p).2.1.cache.Get t k2).1 = (c.Get t k2).1) := by
  refine ⟨⟨?_, ?_⟩, ⟨?_, ?_⟩⟩
  · show ((m.Delete key).2.Get t key).1 = (none, false)
    exact MemoryCache.Get_absent _ t key (by simp [MemoryCache.Delete])
  · show ((m.Delete key).2.Get t k2).1 = (m.Get t k2).1
    have hst : (m.Delete key).2.store k2 = m.store k2 := by
      simp [MemoryCache.Delete, Function.update_noteq hne]
    cases hs : m.store k2 with
    | none =>
      rw [MemoryCache.Get_absent _ t k2 (hst.trans hs), MemoryCache.Get_absent _ t k2 hs]
    | some itm =>
      rw [MemoryCache.Get_present _ t k2 itm (hst.trans hs),
        MemoryCache.Get_present _ t k2 itm hs]
  · show ((c.Delete key).2.Get t key).1 = (none, false)
    rw [InMemoryCache.Get_absent_sync _ t key (by simp [InMemoryCache.Delete])]
  · show ((c.Delete key).2.Get t k2).1 = (c.Get t k2).1
    have hst : (c.Delete key).2.store k2 = c.store k2 := by
      simp [InMemoryCache.Delete, Function.update_noteq hne]
    cases hs : c.store k2 with
    | none =>
      rw [InMemoryCache.Get_absent_sync _ t k2 (hst.trans hs),
        InMemoryCache.Get_absent_sync _ t k2 hs]
    | some e =>
      rw [InMemoryCache.Get_present_sync _ t k2 e (hst.trans hs),
        InMemoryCache.Get_present_sync _ t k2 e hs]
      split <;> rfl

/-- Witness for C13: evicting `"a"` from stores holding `"a"` and `"b"` leaves `"b"`
found. -/
theorem C13_evict_one_removes_only_that_key_witness :
    (((CacheDecorator.mk ((NewMemoryCache.Set 1 "a" (some 1) 0).2.Set 2 "b" (some 2) 0).2
          NewCacheMetrics).CacheEvict (MemoryCache.asCache Nat) 3 "a" false
          (fun n : Nat => (none, n + 1)) 0).2.1.cache.Get 4 "b").1
      = (((NewMemoryCache.Set 1 "a" (some 1) 0).2.Set 2 "b" (some 2) 0).2.Get 4 "b").1 ∧
    (((CacheDecorator.mk ((NewInMemoryCache.Set 1 "a" (some 1) 0).2.Set 2 "b" (some 2) 0).2
          NewCacheMetrics).CacheEvict (InMemoryCache.asCache Nat) 3 "a" false
          (fun n : Nat => (none, n + 1)) 0).2.1.cache.Get 4 "a").1 = (none, false) :=
  ⟨(C13_evict_one_removes_only_that_key
      ((NewMemoryCache.Set 1 "a" (some 1) 0).2.Set 2 "b" (some 2) 0).2
      ((NewInMemoryCache.Set 1 "a" (some 1) 0).2.Set 2 "b" (some 2) 0).2
      NewCacheMetrics "a" "b" 3 4 (fun n : Nat => (none, n + 1)) 0 (by decide)).1.2,
   (C13_evict_one_removes_only_that_key
      ((NewMemoryCache.Set 1 "a" (some 1) 0).2.Set 2 "b" (some 2) 0).2
      ((NewInMemoryCache.Set 1 "a" (some 1) 0).2.Set 2 "b" (some 2) 0).2
      NewCacheMetrics "a" "b" 3 4 (fun n : Nat => (none, n + 1)) 0 (by decide)).2.1⟩

/-- Claim C14: `CacheDecorator.CacheEvict` with `allEntries = true` over a
`MemoryCache` or an `InMemoryCache` in any state, whatever key is passed: afterwards
the table is the one of a fresh store and `Get` returns `(nil, false)` for every
key, at every clock reading. -/
theorem C14_evict_all_removes_every_key {V P : Type} (m : MemoryCache V)
    (c : InMemoryCache V) (m0 : CacheMetrics) (key k : String) (now t : Clock)
    (fn : P → error × P) (p : P) :
    (((CacheDecorator.mk m m0).CacheEvict (MemoryCache.asCache V) now key true fn
          p).2.1.cache = NewMemoryCache ∧
      (((CacheDecorator.mk m m0).CacheEvict (MemoryCache.asCache V) now key true fn
          p).2.1.cache.Get t k).1 = (none, false)) ∧
    (((CacheDecorator.mk c m0).CacheEvict (InMemoryCache.asCache V) now key true fn
          p).2.1.cache = NewInMemoryCache ∧
      (((CacheDecorator.mk c m0).CacheEvict (InMemoryCache.asCache V) now key true fn
          p).2.1.cache.Get t k).1 = (none, false)) := by
  refine ⟨⟨rfl, ?_⟩, ⟨rfl, ?_⟩⟩
  · show ((NewMemoryCache : MemoryCache V).Get t k).1 = (none, false)
    exact MemoryCache.Get_absent _ t k rfl
  · show ((NewInMemoryCache : InMemoryCache V).Get t k).1 = (none, false)
    rw [InMemoryCache.Get_absent_sync _ t k rfl]

/-- Claim C15, evaluated on a `MemoryCache` holding `7` under `"k"` and a computation
`fn` that fails with `"boom"` and counts its invocations: `CacheEvict` with
`allEntries = false` returns nil instead of `"boom"`, the invocation counter stays
at zero (`fn` is never run), and the entry that `Get("k")` returned before the call
is gone afterwards. -/
theorem C15_evict_never_runs_fn :
    ((CacheDecorator.mk (NewMemoryCache.Set 1 "k" (some 7) 0).2 NewCacheMetrics).CacheEvict
        (MemoryCache.asCache Nat) 2 "k" false (fun n : Nat => (some "boom", n + 1)) 0).1
      = none ∧
    ((CacheDecorator.mk (NewMemoryCache.Set 1 "k" (some 7) 0).2 NewCacheMetrics).CacheEvict
        (MemoryCache.asCache Nat) 2 "k" false (fun n : Nat => (some "boom", n + 1)) 0).2.2
      = 0 ∧
    ((NewMemoryCache.Set 1 "k" (some 7) 0).2.Get 3 "k").1 = (some 7, true) ∧
    (((CacheDecorator.mk (NewMemoryCache.Set 1 "k" (some 7) 0).2 NewCacheMetrics).CacheEvict
        (MemoryCache.asCache Nat) 2 "k" false
        (fun n : Nat => (some "boom", n + 1)) 0).2.1.cache.Get 3 "k").1
      = (none, false) :=
  ⟨rfl, rfl, rfl, rfl⟩

/-- Claim C16, evaluated on a `Cache` whose `Delete` and `Clear` fail with
`"unreachable"`: `CacheEvict` returns that error, with `allEntries` false and true,
and the error counter stays at zero. -/
theorem C16_evict_returns_store_error :
    ((CacheDecorator.mk () NewCacheMetrics).CacheEvict
        (Cache.mk (fun c _ _ => (((none : Interface Nat), false), c))
          (fun c _ _ _ _ => (none, c)) (fun c _ _ => (some "unreachable", c))
          (fun c _ => (some "unreachable", c)))
        2 "k" false (fun n : Nat => (none, n + 1)) 0).1 = some "unreachable" ∧
    ((CacheDecorator.mk () NewCacheMetrics).CacheEvict
        (Cache.mk (fun c _ _ => (((none : Interface Nat), false), c))
          (fun c _ _ _ _ => (none, c)) (fun c _ _ => (some "unreachable", c))
          (fun c _ => (some "unreachable", c)))
        2 "k" false (fun n : Nat => (none, n + 1)) 0).2.1.metrics.errors = 0 ∧
    ((CacheDecorator.mk () NewCacheMetrics).CacheEvict
        (Cache.mk (fun c _ _ => (((none : Interface Nat), false), c))
          (fun c _ _ _ _ => (none, c)) (fun c _ _ => (some "unreachable", c))
          (fun c _ => (some "unreachable", c)))
        2 "k" true (fun n : Nat => (none, n + 1)) 0).1 = some "unreachable" ∧
    ((CacheDecorator.mk () NewCacheMetrics).CacheEvict
        (Cache.mk (fun c _ _ => (((none : Interface Nat), false), c))
          (fun c _ _ _ _ => (none, c)) (fun c _ _ => (some "unreachable", c))
          (fun c _ => (some "unreachable", c)))
        2 "k" true (fun n : Nat => (none, n + 1)) 0).2.1.metrics.errors = 0 :=
  ⟨rfl, rfl, rfl, rfl⟩

/-! ## Claims about key generation -/

/-- Counterexample to C17 as stated: for the single string argument `"a"` the key is
`"a:"`, not the text `"a"` that separating the arguments by `":"` gives. -/
theorem C17_key_is_not_separated_texts :
    DefaultKeyGenerator (fun _ : Interface (Dyn Nat) => none) [some (Dyn.str "a")] = "a:" ∧
    separatedKey (fun _ : Interface (Dyn Nat) => none) [some (Dyn.str "a")] = "a" ∧
    DefaultKeyGenerator (fun _ : Interface (Dyn Nat) => none) [some (Dyn.str "a")]
      ≠ separatedKey (fun _ : Interface (Dyn Nat) => none) [some (Dyn.str "a")] := by
  decide

/-- Claim C17, amended: for every argument list, `DefaultKeyGenerator` returns the
textual forms of the arguments in argument order, each one followed by `":"` (a
string argument used directly, the JSON encoding for any other argument, nothing
for an argument that has no JSON encoding). The key of the empty list is empty and
the key of a non-empty list is the texts separated by `":"` followed by one more
`":"`. The key is a function of the arguments alone. -/
theorem C17_key_is_terminated_texts {W : Type}
    (jsonMarshal : Interface (Dyn W) → Option String)
    (arg : Interface (Dyn W)) (args : List (Interface (Dyn W))) :
    DefaultKeyGenerator jsonMarshal args = terminatedKey jsonMarshal args ∧
    DefaultKeyGenerator jsonMarshal [] = "" ∧
    DefaultKeyGenerator jsonMarshal (arg :: args)
      = separatedKey jsonMarshal (arg :: args) ++ ":" := by
  have hkey : ∀ l : List (Interface (Dyn W)),
      DefaultKeyGenerator jsonMarshal l = terminatedKey jsonMarshal l := by
    intro l
    unfold DefaultKeyGenerator
    rw [DefaultKeyGenerator_foldl, String.empty_append]
  refine ⟨hkey args, rfl, ?_⟩
  rw [hkey]
  simp only [separatedKey, List.map_cons, String.intercalate, terminatedKey]
  rw [intercalate_go_terminated]

/-! ## Claims about the remote store and the container -/

/-- Claim C18, evaluated on a `RedisCache` with all counters at zero. When the
backend call fails with a connection error, `Get` returns `(nil, false)` and counts
a miss, and the error counter stays at zero. When the stored text fails to
deserialize, `Get` returns `(nil, false)` and the error counter goes to one. -/
theorem C18_backend_failure_counted_as_miss :
    (RedisCache.Get (fun _ => (none : Option (Interface Nat)))
        ⟨⟨"localhost:6379", "", 0⟩, NewCacheMetrics⟩
        ("", some "dial tcp 127.0.0.1:6379: connect: connection refused")).1
      = (none, false) ∧
    (RedisCache.Get (fun _ => (none : Option (Interface Nat)))
        ⟨⟨"localhost:6379", "", 0⟩, NewCacheMetrics⟩
        ("", some "dial tcp 127.0.0.1:6379: connect: connection refused")).2.metrics
      = ⟨0, 1, 0, 0⟩ ∧
    (RedisCache.Get (fun _ => (none : Option (Interface Nat)))
        ⟨⟨"localhost:6379", "", 0⟩, NewCacheMetrics⟩ ("not json", none)).1
      = (none, false) ∧
    (RedisCache.Get (fun _ => (none : Option (Interface Nat)))
        ⟨⟨"localhost:6379", "", 0⟩, NewCacheMetrics⟩ ("not json", none)).2.metrics
      = ⟨1, 0, 1, 0⟩ :=
  ⟨rfl, rfl, rfl, rfl⟩

/-- Counterexample to C19 as stated: with kind `"remote"`, and a backend that
answers the liveness check so that the constructor of the remote store succeeds,
`initCache` yields no store and the error `"unsupported cache type: remote"`. -/
theorem C19_kind_remote_is_unsupported :
    initCache Nat (fun _ => none)
        ⟨⟨""⟩, ⟨"", 0⟩, ⟨"remote", ⟨"localhost", 6379, "", 0⟩⟩, ⟨"", "", "", ""⟩⟩
      = (none, some "unsupported cache type: remote") ∧
    (NewRedisCache (fun _ => none) "localhost" 6379 "" 0).2 = none :=
  ⟨rfl, rfl⟩

/-- Claim C19, amended: `initCache` selects the backend from the configured kind.
Kind `"memory"` yields a fresh `MemoryCache` and no error. Kind `"redis"` yields
what `NewRedisCache` returns for the configured host, port, credential and database
index: its error, and its store when the liveness check passes. Every other kind,
`"remote"` included, yields no store and the error `unsupported cache type`. -/
theorem C19_initCache_selects_backend (V : Type) (ping : RedisOptions → error)
    (cfg : Config) :
    (cfg.Cache.Typ = "memory" →
      initCache V ping cfg = (some (CacheValue.memoryCache NewMemoryCache), none)) ∧
    (cfg.Cache.Typ = "redis" →
      initCache V ping cfg
        = (some (CacheValue.redisCache (NewRedisCache ping cfg.Cache.Redis.Host
              cfg.Cache.Redis.Port cfg.Cache.Redis.Password cfg.Cache.Redis.DB).1),
            (NewRedisCache ping cfg.Cache.Redis.Host cfg.Cache.Redis.Port
              cfg.Cache.Redis.Password cfg.Cache.Redis.DB).2) ∧
      (ping ⟨cfg.Cache.Redis.Host ++ ":" ++ toString cfg.Cache.Redis.Port,
          cfg.Cache.Redis.Password, cfg.Cache.Redis.DB⟩ = none →
        initCache V ping cfg
          = (some (CacheValue.redisCache (some
              ⟨⟨cfg.Cache.Redis.Host ++ ":" ++ toString cfg.Cache.Redis.Port,
                cfg.Cache.Redis.Password, cfg.Cache.Redis.DB⟩, NewCacheMetrics⟩)), none)) ∧
      (∀ e, ping ⟨cfg.Cache.Redis.Host ++ ":" ++ toString cfg.Cache.Redis.Port,
          cfg.Cache.Redis.Password, cfg.Cache.Redis.DB⟩ = some e →
        (initCache V ping cfg).2 = some ("failed to connect to Redis: " ++ e))) ∧
    (cfg.Cache.Typ ≠ "memory" → cfg.Cache.Typ ≠ "redis" →
      initCache V ping cfg = (none, some ("unsupported cache type: " ++ cfg.Cache.Typ))) := by
  refine ⟨fun h => ?_, fun h => ?_, fun h1 h2 => ?_⟩
  · simp [initCache, h]
  · have hne : ¬ (cfg.Cache.Typ = "memory") := by rw [h]; decide
    refine ⟨?_, fun hp => ?_, fun e hp => ?_⟩
    · simp only [initCache, if_neg hne, if_pos h]
    · simp only [initCache, if_neg hne, if_pos h, NewRedisCache, hp]
    · simp only [initCache, if_neg hne, if_pos h, NewRedisCache, hp]
  · simp only [initCache, if_neg h1, if_neg h2]

/-- Witness for C19: kind `"redis"` with a backend that answers the liveness check
yields the store `NewRedisCache` constructs, and no error. -/
theorem C19_initCache_selects_backend_witness :
    initCache Nat (fun _ => none)
        ⟨⟨""⟩, ⟨"", 0⟩, ⟨"redis", ⟨"localhost", 6379, "", 0⟩⟩, ⟨"", "", "", ""⟩⟩
      = (some (CacheValue.redisCache (NewRedisCache (fun _ => none) "localhost" 6379 "" 0).1),
          (NewRedisCache (fun _ => none) "localhost" 6379 "" 0).2) ∧
    initCache Nat (fun _ => none)
        ⟨⟨""⟩, ⟨"", 0⟩, ⟨"ehcache", ⟨"localhost", 6379, "", 0⟩⟩, ⟨"", "", "", ""⟩⟩
      = (none, some ("unsupported cache type: " ++ "ehcache")) :=
  ⟨((C19_initCache_selects_backend Nat (fun _ => none)
      ⟨⟨""⟩, ⟨"", 0⟩, ⟨"redis", ⟨"localhost", 6379, "", 0⟩⟩, ⟨"", "", "", ""⟩⟩).2.1 rfl).1,
   (C19_initCache_selects_backend Nat (fun _ => none)
      ⟨⟨""⟩, ⟨"", 0⟩, ⟨"ehcache", ⟨"localhost", 6379, "", 0⟩⟩, ⟨"", "", "", ""⟩⟩).2.2
      (by decide) (by decide)⟩

/-! ## Claims about lazy expiration, shape mismatch, key collisions and the user service -/

/-- Counterexample to C22 as stated: in `MemoryCache`, `Set("k", 1, 10ns)` at clock
reading 5 and `Get("k")` at clock reading 20, after the expiration. The `Get` returns
`(nil, false)` and the table still holds the entry of `"k"`. -/
theorem C22_memoryCache_get_keeps_expired_entry :
    ((NewMemoryCache.Set 5 "k" (some 1) 10).2.Get 20 "k").1 = ((none : Interface Nat), false) ∧
    (((NewMemoryCache.Set 5 "k" (some 1) 10).2.Get 20 "k").2.store "k").isSome = true :=
  ⟨rfl, rfl⟩

/-- Claim C22, amended: in `InMemoryCache`, a `Get(k)` at a clock reading at or after
the expiration instant of the entry of `k` returns `(nil, false)` and discards that
entry, so that the table holds no entry for `k`, and leaves the entries of all other
keys unchanged. In `MemoryCache`, `Get` never changes the table: an expired entry is
reported as `(nil, false)` and stays in the table. -/
theorem C22_get_discards_expired_entry_in_InMemoryCache {V : Type} (m : MemoryCache V)
    (c : InMemoryCache V) (k k2 : String) (t : Clock) (e : CacheEntry V) (itm : item V) :
    (c.store k = some e → e.Expiration.nanos ≠ 0 → e.Expiration.nanos ≤ (Now t).nanos →
      (c.Get t k).1 = (none, false) ∧ (c.Get t k).2.store k = none ∧
      (k2 ≠ k → (c.Get t k).2.store k2 = c.store k2)) ∧
    ((m.Get t k).2 = m ∧
      (m.store k = some itm → 0 < itm.expiration → itm.expiration < wrapInt64 t →
        (m.Get t k).1 = (none, false) ∧ (m.Get t k).2.store k = some itm)) := by
  constructor
  · intro hs hnz hle
    rw [InMemoryCache.Get_present_sync c t k e hs,
      if_neg (fun h => by rcases h with h | h; exact hnz h; exact absurd hle (not_le.mpr h))]
    refine ⟨rfl, by simp, fun hne => by simp [Function.update_noteq hne]⟩
  · refine ⟨MemoryCache.Get_snd m t k, fun hs h0 hlt => ?_⟩
    rw [MemoryCache.Get_snd, MemoryCache.Get_present m t k itm hs, if_pos ⟨h0, hlt⟩]
    exact ⟨rfl, hs⟩

/-- Witness for C22: in `InMemoryCache`, after `Set("k", 1, 10ns)` at clock reading 5
and `Set("j", 2, 0)`, a `Get("k")` at clock reading 20 removes the entry of `"k"` and
keeps the entry of `"j"`. -/
theorem C22_get_discards_expired_entry_in_InMemoryCache_witness :
    (((NewInMemoryCache.Set 5 "k" (some 1) 10).2.Set 6 "j" (some 2) 0).2.Get 20 "k").2.store "k"
      = none ∧
    (((NewInMemoryCache.Set 5 "k" (some 1) 10).2.Set 6 "j" (some 2) 0).2.Get 20 "k").2.store "j"
      = ((NewInMemoryCache.Set 5 "k" (some 1) 10).2.Set 6 "j" (some 2) 0).2.store "j" :=
  ⟨((C22_get_discards_expired_entry_in_InMemoryCache NewMemoryCache
      ((NewInMemoryCache.Set 5 "k" (some 1) 10).2.Set 6 "j" (some 2) 0).2 "k" "j" 20
      ⟨some 1, (Now 5).Add 10⟩ ⟨none, 0⟩).1 rfl (by decide) (by decide)).2.1,
   ((C22_get_discards_expired_entry_in_InMemoryCache NewMemoryCache
      ((NewInMemoryCache.Set 5 "k" (some 1) 10).2.Set 6 "j" (some 2) 0).2 "k" "j" 20
      ⟨some 1, (Now 5).Add 10⟩ ⟨none, 0⟩).1 rfl (by decide) (by decide)).2.2 (by decide)⟩

/-- Claim C24: `DefaultKeyGenerator` is not injective. The single string argument
`"a:b"` and the two string arguments `"a"`, `"b"` both give `"a:b:"`; an argument
`one` that is not a string and whose JSON encoding is `1`, such as the integer 1, and
the string `"1"` both give `"1:"`. The key of a concatenated argument list is the
concatenation of the keys of its parts, and the empty list gives the empty key. -/
theorem C24_key_generator_not_injective {W : Type}
    (jsonMarshal : Interface (Dyn W) → Option String) (one : Interface (Dyn W))
    (xs ys : List (Interface (Dyn W)))
    (hnot : Dyn.assertString one = none) (hjson : jsonMarshal one = some "1") :
    (DefaultKeyGenerator jsonMarshal [some (Dyn.str "a:b")] = "a:b:" ∧
      DefaultKeyGenerator jsonMarshal [some (Dyn.str "a"), some (Dyn.str "b")] = "a:b:" ∧
      ([some (Dyn.str "a:b")] : List (Interface (Dyn W)))
        ≠ [some (Dyn.str "a"), some (Dyn.str "b")]) ∧
    (DefaultKeyGenerator jsonMarshal [one] = "1:" ∧
      DefaultKeyGenerator jsonMarshal [some (Dyn.str "1")] = "1:" ∧
      [one] ≠ [some (Dyn.str "1")]) ∧
    DefaultKeyGenerator jsonMarshal (xs ++ ys)
      = DefaultKeyGenerator jsonMarshal xs ++ DefaultKeyGenerator jsonMarshal ys ∧
    DefaultKeyGenerator jsonMarshal [] = "" := by
  refine ⟨⟨?_, ?_, ?_⟩, ⟨?_, ?_, ?_⟩, ?_, rfl⟩
  · rw [DefaultKeyGenerator_eq_terminatedKey]
    simp only [terminatedKey, argText, Dyn.assertString]
    decide
  · rw [DefaultKeyGenerator_eq_terminatedKey]
    simp only [terminatedKey, argText, Dyn.assertString]
    decide
  · intro h
    simp at h
  · rw [DefaultKeyGenerator_eq_terminatedKey]
    simp only [terminatedKey, argText, hnot, hjson, Option.getD_some]
    decide
  · rw [DefaultKeyGenerator_eq_terminatedKey]
    simp only [terminatedKey, argText, Dyn.assertString]
    decide
  · intro h
    simp only [List.cons.injEq, and_true] at h
    rw [h] at hnot
    simp [Dyn.assertString] at hnot
  · rw [DefaultKeyGenerator_eq_terminatedKey, DefaultKeyGenerator_eq_terminatedKey,
      DefaultKeyGenerator_eq_terminatedKey, terminatedKey_append]

/-- Witness for C24: the other dynamic values are integers, encoded in decimal; the
integer 1 and the string `"1"` collide, and so do `["a:b"]` and `["a", "b"]`. -/
theorem C24_key_generator_not_injective_witness :
    DefaultKeyGenerator
        (fun a : Interface (Dyn Int) =>
          match a with
          | some (Dyn.other n) => some (toString n)
          | _ => none)
        [some (Dyn.other 1)] = "1:" ∧
    DefaultKeyGenerator
        (fun a : Interface (Dyn Int) =>
          match a with
          | some (Dyn.other n) => some (toString n)
          | _ => none)
        [some (Dyn.str "1")] = "1:" :=
  ⟨(C24_key_generator_not_injective
      (fun a : Interface (Dyn Int) =>
        match a with
        | some (Dyn.other n) => some (toString n)
        | _ => none)
      (some (Dyn.other 1)) [] [] rfl (by decide)).2.1.1,
   (C24_key_generator_not_injective
      (fun a : Interface (Dyn Int) =>
        match a with
        | some (Dyn.other n) => some (toString n)
        | _ => none)
      (some (Dyn.other 1)) [] [] rfl (by decide)).2.1.2.1⟩

/-- Claim C25, evaluated on a `users` table that holds `alice` with ID 1 and an update
of user 1 to the username `bob`, which no user has. The table does hold `alice` and
`FindByUsername("bob")` returns no user and no error, but the statement `FindByID`
sends is not SQL, the database rejects it, and `UpdateUser` returns the error of
`FindByID` at once: it does not go on to the email check, the repository update and
the cache invalidation, and the table and the cache are as before. -/
theorem C25_update_stops_at_FindByID :
    UserRepository.FindByUsername usersTable
        [⟨1, "alice", "alice@example.org", ⟨0⟩, ⟨0⟩⟩] "alice"
      = (some ⟨1, "alice", "alice@example.org", ⟨0⟩, ⟨0⟩⟩, none) ∧
    UserRepository.FindByUsername usersTable
        [⟨1, "alice", "alice@example.org", ⟨0⟩, ⟨0⟩⟩] "bob" = (none, none) ∧
    NewUserRepository.base.findByIDQuery
      = "SELECT [id username email created_at updated_at] FROM users WHERE id = $1" ∧
    NewUserRepository.base.FindByID usersTable
        [⟨1, "alice", "alice@example.org", ⟨0⟩, ⟨0⟩⟩] 1
      = (none, some "failed to find by ID: pq: syntax error") ∧
    (UserService.UpdateUser NewUserRepository usersTable (MemoryCache.asCache Nat)
        [⟨1, "alice", "alice@example.org", ⟨0⟩, ⟨0⟩⟩]
        (NewMemoryCache.Set 0 "user:1" (some 7) 0).2 1 2 3
        ⟨1, "bob", "alice@example.org", ⟨0⟩, ⟨0⟩⟩)
      = (Outcome.returned (some "failed to find by ID: pq: syntax error"),
          [⟨1, "alice", "alice@example.org", ⟨0⟩, ⟨0⟩⟩],
          (NewMemoryCache.Set 0 "user:1" (some 7) 0).2) := by
  refine ⟨by decide, by decide, by decide, by decide, ?_⟩
  exact UserService.UpdateUser_of_rejected_lookup NewUserRepository usersTable
    (MemoryCache.asCache Nat) _ _ 1 2 3 _ "pq: syntax error" (by decide)

/-- Counterexample to C23 as stated: `T` is an interface type (nil, or a string that
implements it), the values of the store are numbers or such strings, and the store
holds the number 7, live, under `"k"`, which does not assert to `T`. The producer
succeeds with the nil value of `T`. The first call runs the producer once and stores
the nil `interface{}`; the lookup of the following call finds it, `cached.(T)` fails
on the nil interface, and the producer runs a second time. -/
theorem C23_nil_interface_result_is_produced_again :
    ((NewMemoryCache.Set 1 "k" (some (Sum.inl 7)) 0).2.Get 10 "k").1
      = ((some (Sum.inl 7) : Interface (Nat ⊕ String)), true) ∧
    (Cacheable
        (GoType.mk (none : Option String) (fun t => t.map Sum.inr)
          (fun a : Interface (Nat ⊕ String) =>
            match a with
            | some (Sum.inr s) => some (some s)
            | _ => none))
        (MemoryCache.asCache (Nat ⊕ String)) (fun _ => "k") 100
        (fun _ => Producer.counted (fun _ : Unit => ((none, none), ()))) []
        (NewMemoryCache.Set 1 "k" (some (Sum.inl 7)) 0).2 10 11 ((), 0) []).2.2.1
      = ((), 1) ∧
    (Cacheable
        (GoType.mk (none : Option String) (fun t => t.map Sum.inr)
          (fun a : Interface (Nat ⊕ String) =>
            match a with
            | some (Sum.inr s) => some (some s)
            | _ => none))
        (MemoryCache.asCache (Nat ⊕ String)) (fun _ => "k") 100
        (fun _ => Producer.counted (fun _ : Unit => ((none, none), ()))) []
        (Cacheable
          (GoType.mk (none : Option String) (fun t => t.map Sum.inr)
            (fun a : Interface (Nat ⊕ String) =>
              match a with
              | some (Sum.inr s) => some (some s)
              | _ => none))
          (MemoryCache.asCache (Nat ⊕ String)) (fun _ => "k") 100
          (fun _ => Producer.counted (fun _ : Unit => ((none, none), ()))) []
          (NewMemoryCache.Set 1 "k" (some (Sum.inl 7)) 0).2 10 11 ((), 0) []).2.1
        12 13 ((), 1) []).2.2.1
      = ((), 2) :=
  ⟨rfl, rfl, rfl⟩

/-- Claim C23, amended: the generic `Cacheable[T]` over a `MemoryCache` or an
`InMemoryCache` that holds under the generated key a live value `cached` that does
not assert to `T`, with a producer that succeeds with `r`. The call does what it does
on the store without that entry: the producer runs exactly once with the call's
arguments (its invocation counter goes from `n` to `n + 1`), `r` is returned, and `r`
is stored under the key with the configured `ttl` in place of the mismatched value.
When `r`, passed as `interface{}`, asserts back to `T` (every result does, except the
nil value of an interface type `T`), a following call with the same arguments before
expiry returns `r` and does not run the producer. For `MemoryCache` the clock
readings and `ttl` are in the `int64` range. -/
theorem C23_shape_mismatch_is_a_miss {V T P : Type} (ty : GoType V T)
    (keyGenerator : List (Interface V) → String) (ttl : Duration)
    (fn : List (Interface V) → Producer P T) (args : List (Interface V))
    (tGet tSet tGet2 tSet2 : Clock) (p : P) (n : Nat) (out : List String)
    (cached : Interface V) (r : T)
    (hassert : ty.assert cached = none) (hfn : (fn args p).1 = (r, none))
    (hlive : ttl ≤ 0 ∨ (tGet2 : Int) < tSet + ttl) :
    (∀ m : MemoryCache V, (m.Get tGet (keyGenerator args)).1 = (cached, true) →
      Clock.valid tSet → Clock.valid tGet2 → Duration.valid ttl →
      let first := Cacheable ty (MemoryCache.asCache V) keyGenerator ttl
        (fun a => (fn a).counted) args m tGet tSet (p, n) out
      let second := Cacheable ty (MemoryCache.asCache V) keyGenerator ttl
        (fun a => (fn a).counted) args first.2.1 tGet2 tSet2 first.2.2.1 first.2.2.2
      first = Cacheable ty (MemoryCache.asCache V) keyGenerator ttl
        (fun a => (fn a).counted) args (m.Delete (keyGenerator args)).2 tGet tSet (p, n) out ∧
      first.1 = (r, none) ∧ first.2.2.1 = ((fn args p).2, n + 1) ∧
      first.2.1 = (m.Set tSet (keyGenerator args) (ty.box r) ttl).2 ∧
      (first.2.1.Get tGet2 (keyGenerator args)).1 = (ty.box r, true) ∧
      (ty.assert (ty.box r) = some r →
        second.1 = (r, none) ∧ second.2.2.1 = ((fn args p).2, n + 1))) ∧
    (∀ c : InMemoryCache V, (c.Get tGet (keyGenerator args)).1 = (cached, true) →
      let first := Cacheable ty (InMemoryCache.asCache V) keyGenerator ttl
        (fun a => (fn a).counted) args c tGet tSet (p, n) out
      let second := Cacheable ty (InMemoryCache.asCache V) keyGenerator ttl
        (fun a => (fn a).counted) args first.2.1 tGet2 tSet2 first.2.2.1 first.2.2.2
      first = Cacheable ty (InMemoryCache.asCache V) keyGenerator ttl
        (fun a => (fn a).counted) args (c.Delete (keyGenerator args)).2 tGet tSet (p, n) out ∧
      first.1 = (r, none) ∧ first.2.2.1 = ((fn args p).2, n + 1) ∧
      first.2.1 = (c.Set tSet (keyGenerator args) (ty.box r) ttl).2 ∧
      (first.2.1.Get tGet2 (keyGenerator args)).1 = (ty.box r, true) ∧
      (ty.assert (ty.box r) = some r →
        second.1 = (r, none) ∧ second.2.2.1 = ((fn args p).2, n + 1))) := by
  have hcnt : ((fun a => (fn a).counted) args (p, n)).1 = (r, none) := by
    show ((fn args).counted (p, n)).1 = (r, none)
    rw [Producer.counted_apply]; exact hfn
  constructor
  · intro m hget hvs hvt hvd
    have hfirst := Cacheable_generic_ok ty (MemoryCache.asCache V) keyGenerator ttl
      (fun a => (fn a).counted) args m tGet tSet (p, n) out r
      (Or.inr (by
        show ty.assert (m.Get tGet (keyGenerator args)).1.1 = none
        rw [hget]; exact hassert))
      hcnt rfl
    have hmiss := Cacheable_generic_ok ty (MemoryCache.asCache V) keyGenerator ttl
      (fun a => (fn a).counted) args (m.Delete (keyGenerator args)).2 tGet tSet (p, n) out r
      (Or.inl (by
        show (((m.Delete (keyGenerator args)).2.Get tGet (keyGenerator args)).1).2 = false
        rw [MemoryCache.Get_absent _ tGet _ (by simp [MemoryCache.Delete])]))
      hcnt rfl
    have hstate : (m.Delete (keyGenerator args)).2.Set tSet (keyGenerator args) (ty.box r) ttl
        = m.Set tSet (keyGenerator args) (ty.box r) ttl := by
      simp [MemoryCache.Set, MemoryCache.Delete]
    have hfound := MemoryCache.Get_after_Set_live m (keyGenerator args) (ty.box r) ttl
      tSet tGet2 hlive hvs hvt hvd
    intro first second
    have hf : first = ((r, none), (m.Set tSet (keyGenerator args) (ty.box r) ttl).2,
        ((fn args p).2, n + 1), out) := by
      show Cacheable ty (MemoryCache.asCache V) keyGenerator ttl
        (fun a => (fn a).counted) args m tGet tSet (p, n) out = _
      rw [hfirst]
      show (_, ((m.Get tGet (keyGenerator args)).2.Set tSet (keyGenerator args)
        (ty.box r) ttl).2, _, _) = _
      rw [MemoryCache.Get_snd]
      rfl
    have hs : ty.assert (ty.box r) = some r →
        second = ((r, none), (m.Set tSet (keyGenerator args) (ty.box r) ttl).2,
          ((fn args p).2, n + 1), out) := by
      intro hround
      show Cacheable ty (MemoryCache.asCache V) keyGenerator ttl
        (fun a => (fn a).counted) args first.2.1 tGet2 tSet2 first.2.2.1 first.2.2.2 = _
      rw [hf]
      exact Cacheable_generic_hit ty (MemoryCache.asCache V) keyGenerator ttl
        (fun a => (fn a).counted) args _ tGet2 tSet2 _ out (ty.box r) _ r
        (Prod.ext hfound (MemoryCache.Get_snd _ tGet2 _)) hround
    refine ⟨?_, ?_⟩
    · rw [hf, hmiss]
      show _ = (_, (((m.Delete (keyGenerator args)).2.Get tGet (keyGenerator args)).2.Set tSet
        (keyGenerator args) (ty.box r) ttl).2, _, _)
      rw [MemoryCache.Get_snd, hstate]
      rfl
    · refine ⟨?_, ?_, ?_, ?_, fun hround => ?_⟩
      · rw [hf]
      · rw [hf]
      · rw [hf]
      · rw [hf]
        exact hfound
      · rw [hs hround]
        exact ⟨rfl, rfl⟩
  · intro c hget
    have hfnd : (c.Get tGet (keyGenerator args)).1.2 = true := by rw [hget]
    have hfirst := Cacheable_generic_ok ty (InMemoryCache.asCache V) keyGenerator ttl
      (fun a => (fn a).counted) args c tGet tSet (p, n) out r
      (Or.inr (by
        show ty.assert (c.Get tGet (keyGenerator args)).1.1 = none
        rw [hget]; exact hassert))
      hcnt rfl
    have habs : (c.Delete (keyGenerator args)).2.Get tGet (keyGenerator args)
        = ((none, false), (c.Delete (keyGenerator args)).2) :=
      InMemoryCache.Get_absent_sync _ tGet _ (by simp [InMemoryCache.Delete])
    have hmiss := Cacheable_generic_ok ty (InMemoryCache.asCache V) keyGenerator ttl
      (fun a => (fn a).counted) args (c.Delete (keyGenerator args)).2 tGet tSet (p, n) out r
      (Or.inl (by
        show (((c.Delete (keyGenerator args)).2.Get tGet (keyGenerator args)).1).2 = false
        rw [habs]))
      hcnt rfl
    have hstate : (c.Delete (keyGenerator args)).2.Set tSet (keyGenerator args) (ty.box r) ttl
        = c.Set tSet (keyGenerator args) (ty.box r) ttl := by
      simp [InMemoryCache.Set, InMemoryCache.Delete]
    have hfound := InMemoryCache.Get_after_Set_live_sync c (keyGenerator args) (ty.box r) ttl
      tSet tGet2 hlive
    intro first second
    have hf : first = ((r, none), (c.Set tSet (keyGenerator args) (ty.box r) ttl).2,
        ((fn args p).2, n + 1), out) := by
      show Cacheable ty (InMemoryCache.asCache V) keyGenerator ttl
        (fun a => (fn a).counted) args c tGet tSet (p, n) out = _
      rw [hfirst]
      show (_, ((c.Get tGet (keyGenerator args)).2.Set tSet (keyGenerator args)
        (ty.box r) ttl).2, _, _) = _
      rw [InMemoryCache.Get_found_snd c tGet _ hfnd]
      rfl
    have hs : ty.assert (ty.box r) = some r →
        second = ((r, none), (c.Set tSet (keyGenerator args) (ty.box r) ttl).2,
          ((fn args p).2, n + 1), out) := by
      intro hround
      show Cacheable ty (InMemoryCache.asCache V) keyGenerator ttl
        (fun a => (fn a).counted) args first.2.1 tGet2 tSet2 first.2.2.1 first.2.2.2 = _
      rw [hf]
      exact Cacheable_generic_hit ty (InMemoryCache.asCache V) keyGenerator ttl
        (fun a => (fn a).counted) args _ tGet2 tSet2 _ out (ty.box r) _ r hfound hround
    refine ⟨?_, ?_⟩
    · rw [hf, hmiss]
      show _ = (_, (((c.Delete (keyGenerator args)).2.Get tGet (keyGenerator args)).2.Set tSet
        (keyGenerator args) (ty.box r) ttl).2, _, _)
      rw [habs, hstate]
      rfl
    · refine ⟨?_, ?_, ?_, ?_, fun hround => ?_⟩
      · rw [hf]
      · rw [hf]
      · rw [hf]
      · rw [hf]
        show ((c.Set tSet (keyGenerator args) (ty.box r) ttl).2.Get tGet2 (keyGenerator args)).1
          = (ty.box r, true)
        rw [hfound]
      · rw [hs hround]
        exact ⟨rfl, rfl⟩

/-- Witness for C23: `T` is `string`, the values of the store are numbers or strings,
and the store holds the number 7 under `"k"`. The call returns the produced string
`"fresh"`, the producer has run once, `"fresh"` is found under `"k"` afterwards, and
the following call returns `"fresh"` with the producer still run once. -/
theorem C23_shape_mismatch_is_a_miss_witness :
    ((Cacheable
        (GoType.mk "" (fun s : String => some (Sum.inr s))
          (fun a : Interface (Nat ⊕ String) =>
            match a with
            | some (Sum.inr s) => some s
            | _ => none))
        (MemoryCache.asCache (Nat ⊕ String)) (fun _ => "k") 100
        (fun _ => Producer.counted (fun _ : Unit => (("fresh", none), ()))) []
        (NewMemoryCache.Set 1 "k" (some (Sum.inl 7)) 0).2 10 11 ((), 0) []).1
      = ("fresh", none)) ∧
    ((Cacheable
        (GoType.mk "" (fun s : String => some (Sum.inr s))
          (fun a : Interface (Nat ⊕ String) =>
            match a with
            | some (Sum.inr s) => some s
            | _ => none))
        (MemoryCache.asCache (Nat ⊕ String)) (fun _ => "k") 100
        (fun _ => Producer.counted (fun _ : Unit => (("fresh", none), ()))) []
        (NewMemoryCache.Set 1 "k" (some (Sum.inl 7)) 0).2 10 11 ((), 0) []).2.2.1
      = ((), 1)) ∧
    (((Cacheable
        (GoType.mk "" (fun s : String => some (Sum.inr s))
          (fun a : Interface (Nat ⊕ String) =>
            match a with
            | some (Sum.inr s) => some s
            | _ => none))
        (InMemoryCache.asCache (Nat ⊕ String)) (fun _ => "k") 100
        (fun _ => Producer.counted (fun _ : Unit => (("fresh", none), ()))) []
        (NewInMemoryCache.Set 1 "k" (some (Sum.inl 7)) 0).2 10 11 ((), 0) []).2.1.Get 12 "k").1
      = (some (Sum.inr "fresh"), true)) ∧
    ((Cacheable
        (GoType.mk "" (fun s : String => some (Sum.inr s))
          (fun a : Interface (Nat ⊕ String) =>
            match a with
            | some (Sum.inr s) => some s
            | _ => none))
        (MemoryCache.asCache (Nat ⊕ String)) (fun _ => "k") 100
        (fun _ => Producer.counted (fun _ : Unit => (("fresh", none), ()))) []
        (Cacheable
          (GoType.mk "" (fun s : String => some (Sum.inr s))
            (fun a : Interface (Nat ⊕ String) =>
              match a with
              | some (Sum.inr s) => some s
              | _ => none))
          (MemoryCache.asCache (Nat ⊕ String)) (fun _ => "k") 100
          (fun _ => Producer.counted (fun _ : Unit => (("fresh", none), ()))) []
          (NewMemoryCache.Set 1 "k" (some (Sum.inl 7)) 0).2 10 11 ((), 0) []).2.1
        12 13
        (Cacheable
          (GoType.mk "" (fun s : String => some (Sum.inr s))
            (fun a : Interface (Nat ⊕ String) =>
              match a with
              | some (Sum.inr s) => some s
              | _ => none))
          (MemoryCache.asCache (Nat ⊕ String)) (fun _ => "k") 100
          (fun _ => Producer.counted (fun _ : Unit => (("fresh", none), ()))) []
          (NewMemoryCache.Set 1 "k" (some (Sum.inl 7)) 0).2 10 11 ((), 0) []).2.2.1
        (Cacheable
          (GoType.mk "" (fun s : String => some (Sum.inr s))
            (fun a : Interface (Nat ⊕ String) =>
              match a with
              | some (Sum.inr s) => some s
              | _ => none))
          (MemoryCache.asCache (Nat ⊕ String)) (fun _ => "k") 100
          (fun _ => Producer.counted (fun _ : Unit => (("fresh", none), ()))) []
          (NewMemoryCache.Set 1 "k" (some (Sum.inl 7)) 0).2 10 11 ((), 0) []).2.2.2).2.2.1
      = ((), 1)) :=
  ⟨((C23_shape_mismatch_is_a_miss
      (GoType.mk "" (fun s : String => some (Sum.inr s))
        (fun a : Interface (Nat ⊕ String) =>
          match a with
          | some (Sum.inr s) => some s
          | _ => none))
      (fun _ => "k") 100 (fun _ (_ : Unit) => (("fresh", none), ())) [] 10 11 12 13 () 0 []
      (some (Sum.inl 7)) "fresh" rfl rfl (Or.inr (by decide))).1
      (NewMemoryCache.Set 1 "k" (some (Sum.inl 7)) 0).2 rfl
      (by decide) (by decide) (by decide)).2.1,
   ((C23_shape_mismatch_is_a_miss
      (GoType.mk "" (fun s : String => some (Sum.inr s))
        (fun a : Interface (Nat ⊕ String) =>
          match a with
          | some (Sum.inr s) => some s
          | _ => none))
      (fun _ => "k") 100 (fun _ (_ : Unit) => (("fresh", none), ())) [] 10 11 12 13 () 0 []
      (some (Sum.inl 7)) "fresh" rfl rfl (Or.inr (by decide))).1
      (NewMemoryCache.Set 1 "k" (some (Sum.inl 7)) 0).2 rfl
      (by decide) (by decide) (by decide)).2.2.1,
   ((C23_shape_mismatch_is_a_miss
      (GoType.mk "" (fun s : String => some (Sum.inr s))
        (fun a : Interface (Nat ⊕ String) =>
          match a with
          | some (Sum.inr s) => some s
          | _ => none))
      (fun _ => "k") 100 (fun _ (_ : Unit) => (("fresh", none), ())) [] 10 11 12 13 () 0 []
      (some (Sum.inl 7)) "fresh" rfl rfl (Or.inr (by decide))).2
      (NewInMemoryCache.Set 1 "k" (some (Sum.inl 7)) 0).2 rfl).2.2.2.2.1,
   (((C23_shape_mismatch_is_a_miss
      (GoType.mk "" (fun s : String => some (Sum.inr s))
        (fun a : Interface (Nat ⊕ String) =>
          match a with
          | some (Sum.inr s) => some s
          | _ => none))
      (fun _ => "k") 100 (fun _ (_ : Unit) => (("fresh", none), ())) [] 10 11 12 13 () 0 []
      (some (Sum.inl 7)) "fresh" rfl rfl (Or.inr (by decide))).1
      (NewMemoryCache.Set 1 "k" (some (Sum.inl 7)) 0).2 rfl
      (by decide) (by decide) (by decide)).2.2.2.2.2 rfl).2⟩

end GoSpring
